import Mathlib

/-!
# Mixer configuration queries and the Pilot mixer plugin

A shallow embedding of

* `mixer/pkg/runtime/config/queries.go` (`GetInstancesGroupedByHandlers`), and
* `pilot/pkg/networking/plugin/mixer/mixer.go` (the mixer filter configuration builders),

followed by the properties established about them.

Conventions of the embedding:

* a Go `map[K]V` is an association list with unique keys (`GoMap`); reading is `GoMap.get`,
  the assignment `m[k] = v` is `GoMap.set`.  Go leaves the iteration order of a map
  unspecified; the embedding iterates in insertion order, and no property below depends on it;
* a Go pointer used as a map key (`*HandlerStatic`, `*InstanceStatic`) is its identity, a `Nat`;
* a Go `string` is a Lean `String`; the separator `.` is ASCII, so splitting and suffix tests
  on characters agree with the byte-wise ones of Go on UTF-8 text;
* a run-time panic (an index out of range) is the result `none`.
-/

namespace Istio

set_option linter.dupNamespace false

/-! ## Go maps -/

/-- A Go map: an association list in which every key occurs at most once. -/
abbrev GoMap (K V : Type) := List (K × V)

namespace GoMap

variable {K V : Type} [DecidableEq K]

/-- The read `m[k]` in its two-valued form `v, found := m[k]`. -/
def get : GoMap K V → K → Option V
  | [], _ => none
  | (k', v) :: t, k => if k' = k then some v else get t k

/-- The assignment `m[k] = v`. -/
def set : GoMap K V → K → V → GoMap K V
  | [], k, v => [(k, v)]
  | (k', v') :: t, k, v => if k' = k then (k, v) :: t else (k', v') :: set t k v

/-- The keys of a map, in iteration order. -/
def keys (m : GoMap K V) : List K := m.map Prod.fst

end GoMap

/-! ## `mixer/pkg/runtime/config`: the snapshot and its query -/

/-- Identity of a `*HandlerStatic`. -/
abbrev HandlerRef := Nat

/-- Identity of an `*InstanceStatic`. -/
abbrev InstanceRef := Nat

/-- Modelled from the spec: the declaration of `ActionStatic` is outside the shown sources; an
action references one handler and an ordered sequence of instances. -/
structure ActionStatic where
  Handler : HandlerRef
  Instances : List InstanceRef
  deriving DecidableEq, Repr

/-- Modelled from the spec: the declaration of `Rule` is outside the shown sources; a rule
owns a sequence of actions. -/
structure Rule where
  ActionsStatic : List ActionStatic
  deriving DecidableEq, Repr

/-- Modelled from the spec: the declaration of `Snapshot` is outside the shown sources; a
snapshot owns the rules. -/
structure Snapshot where
  Rules : List Rule
  deriving DecidableEq, Repr

/-- The innermost loop of `GetInstancesGroupedByHandlers`:
`for _, i := range a.Instances { instances[i] = true }`. -/
def addInstances (instances : GoMap InstanceRef Bool) (is : List InstanceRef) :
    GoMap InstanceRef Bool :=
  is.foldl (fun acc i => acc.set i true) instances

/-- The body of the loop over actions.  The set found under `a.Handler` (a fresh one when the
handler is not yet a key) receives the instances of the action.  Go stores the fresh set
before filling it and fills it through the shared reference; storing the filled set gives the
same map. -/
def groupAction (m : GoMap HandlerRef (GoMap InstanceRef Bool)) (a : ActionStatic) :
    GoMap HandlerRef (GoMap InstanceRef Bool) :=
  let instances := match m.get a.Handler with
    | some found => found
    | none => []
  m.set a.Handler (addInstances instances a.Instances)

/-- The loop over the actions of one rule. -/
def groupRule (m : GoMap HandlerRef (GoMap InstanceRef Bool)) (r : Rule) :
    GoMap HandlerRef (GoMap InstanceRef Bool) :=
  r.ActionsStatic.foldl groupAction m

/-- The first phase of `GetInstancesGroupedByHandlers`: the map from handlers to sets. -/
def groupRules (s : Snapshot) : GoMap HandlerRef (GoMap InstanceRef Bool) :=
  s.Rules.foldl groupRule []

/-- The second phase: every set is copied into a slice, `result[k] = instances`. -/
def materialize (m : GoMap HandlerRef (GoMap InstanceRef Bool)) :
    GoMap HandlerRef (List InstanceRef) :=
  m.foldl (fun result kv => result.set kv.1 kv.2.keys) []

/-- The query `GetInstancesGroupedByHandlers`. -/
def GetInstancesGroupedByHandlers (s : Snapshot) : GoMap HandlerRef (List InstanceRef) :=
  materialize (groupRules s)

/-- The actions of a snapshot, rule after rule. -/
def Snapshot.actions (s : Snapshot) : List ActionStatic :=
  s.Rules.flatMap Rule.ActionsStatic

/-- The instances fed to handler `h`: the concatenation of the `Instances` lists of the
actions whose handler is `h`. -/
def Snapshot.fedTo (s : Snapshot) (h : HandlerRef) : List InstanceRef :=
  (s.actions.filter (fun a => a.Handler = h)).flatMap ActionStatic.Instances

/-! ## Go strings -/

namespace strings

/-- The position search and the two slices of one round of the Go loop `genSplit`, for a
one-character separator: `s[:m]` and `s[m+1:]` for the first index `m` of `sep` in `s`, or
`none` when `sep` does not occur. -/
def cut (sep : Char) : List Char → Option (List Char × List Char)
  | [] => none
  | c :: cs =>
    if c = sep then some ([], cs)
    else match cut sep cs with
      | some (a, b) => some (c :: a, b)
      | none => none

/-- The Go function `genSplit(s, sep, 0, n)` for `n ≥ 0` and a one-character separator: at
most `n` pieces, the last one being the unsplit remainder. -/
def genSplit (sep : Char) : Nat → List Char → List (List Char)
  | 0, _ => []
  | 1, s => [s]
  | n + 2, s =>
    match cut sep s with
    | none => [s]
    | some (a, b) => a :: genSplit sep (n + 1) b

/-- The function `strings.SplitN(s, sep, n)` for `n ≥ 0` and a one-character separator. -/
def SplitN (s : String) (sep : Char) (n : Nat) : List String :=
  (genSplit sep n s.data).map String.mk

/-- The function `strings.Split(s, sep)` for a one-character separator: `genSplit` with
`n = Count(s, sep) + 1`. -/
def Split (s : String) (sep : Char) : List String :=
  (genSplit sep (s.data.count sep + 1) s.data).map String.mk

/-- The function `strings.HasSuffix(s, suffix)`. -/
def HasSuffix (s suffix : String) : Bool :=
  suffix.data.isSuffixOf s.data

end strings

/-! ## `pilot/pkg/networking/plugin/mixer`: data -/

/-- The oneof `mpb.Attributes_AttributeValue`: the four kinds of value the plugin produces.
A byte value is the slice `net.IP`, `[]` standing for `nil`. -/
inductive AttributeValue where
  | StringValue (v : String)
  | BoolValue (v : Bool)
  | BytesValue (v : List Nat)
  | StringMapValue (entries : GoMap String String)
  deriving DecidableEq, Repr

/-- The Go type `map[string]*mpb.Attributes_AttributeValue`. -/
abbrev AttributeMap := GoMap String AttributeValue

/-- The message `mpb.Attributes`. -/
structure Attributes where
  Attributes : AttributeMap
  deriving DecidableEq, Repr

/-- Modelled from the spec: `model.NodeType` is declared outside the shown sources; the proxy
kinds are sidecar, ingress and router. -/
inductive NodeType where
  | Sidecar
  | Ingress
  | Router
  deriving DecidableEq, Repr

/-- Modelled from the spec: `model.Proxy` is declared outside the shown sources; a proxy has
a kind (the Go field `Type`), a network address, an opaque ID and a domain suffix. -/
structure Proxy where
  Type_ : NodeType
  IPAddress : String
  ID : String
  Domain : String
  deriving DecidableEq, Repr

/-- The transport security modes of `meshconfig.MeshConfig`. -/
inductive MeshConfig_AuthPolicy where
  | NONE
  | MUTUAL_TLS
  deriving DecidableEq, Repr

/-- Modelled from the spec: `meshconfig.MeshConfig` is declared outside the shown sources;
these are the fields the plugin reads. -/
structure MeshConfig where
  MixerCheckServer : String
  MixerReportServer : String
  DisablePolicyChecks : Bool
  AuthPolicy : MeshConfig_AuthPolicy
  deriving DecidableEq, Repr

/-- Modelled from the spec: `model.Service` is declared outside the shown sources; the plugin
reads its hostname. -/
structure Service where
  Hostname : String
  deriving DecidableEq, Repr

/-- Modelled from the spec: `model.ServiceInstance` is declared outside the shown sources; the
plugin reads the bound service and the label set (`[]` for a nil or empty map). -/
structure ServiceInstance where
  Service : Service
  Labels : GoMap String String
  deriving DecidableEq, Repr

/-- Identity of a `*mccpb.HTTPAPISpec`. -/
abbrev HTTPAPISpecRef := Nat

/-- Identity of a `*mccpb.QuotaSpec`. -/
abbrev QuotaSpecRef := Nat

/-- Modelled from the spec: the interface `model.IstioConfigStore` is declared outside the
shown sources; its two queries return the specs bound to a destination, each entry being the
`Spec` of the returned `model.Config`, of the type the plugin asserts. -/
structure IstioConfigStore where
  HTTPAPISpecByDestination : ServiceInstance → List HTTPAPISpecRef
  QuotaSpecByDestination : ServiceInstance → List QuotaSpecRef

/-- The direction argument of `model.BuildSubsetKey`. -/
inductive TrafficDirection where
  | TrafficDirectionInbound
  | TrafficDirectionOutbound
  deriving DecidableEq, Repr

/-- The functions and the constant the plugin takes from other packages, as parameters:
`net.ParseIP`, the host returned by `net.SplitHostPort`, `model.BuildSubsetKey`,
`model.SortHTTPAPISpec`, `model.SortQuotaSpec` (the list after the in-place sort) and
`v1.MixerFilter`. -/
structure Extern where
  ParseIP : String → List Nat
  SplitHostPort : String → String
  BuildSubsetKey : TrafficDirection → String → String → Nat → String
  SortHTTPAPISpec : List HTTPAPISpecRef → List HTTPAPISpecRef
  SortQuotaSpec : List QuotaSpecRef → List QuotaSpecRef
  MixerFilter : String

/-- The message `mccpb.TransportConfig`. -/
structure TransportConfig where
  CheckCluster : String
  ReportCluster : String
  deriving DecidableEq, Repr

/-- The message `mccpb.ServiceConfig`. -/
structure ServiceConfig where
  MixerAttributes : Attributes
  DisableCheckCalls : Bool
  DisableReportCalls : Bool
  HttpApiSpec : List HTTPAPISpecRef
  QuotaSpec : List QuotaSpecRef
  deriving DecidableEq, Repr

/-- The message `mccpb.HttpClientConfig`; `ForwardAttributes` is `none` for a nil pointer,
`DefaultDestinationService` is `""` when unset. -/
structure HttpClientConfig where
  MixerAttributes : Attributes
  ForwardAttributes : Option Attributes
  ServiceConfigs : GoMap String ServiceConfig
  Transport : TransportConfig
  DefaultDestinationService : String
  deriving DecidableEq, Repr

/-- The message `mccpb.TcpClientConfig`. -/
structure TcpClientConfig where
  MixerAttributes : Attributes
  Transport : TransportConfig
  DisableCheckCalls : Bool
  DisableReportCalls : Bool
  deriving DecidableEq, Repr

namespace v1

/-- Modelled from the spec: the constant `v1.AttrSourcePrefix` of the package
`pilot/pkg/proxy/envoy/v1`, the source-scoped prefix. -/
def AttrSourcePrefix : String := "source"

/-- Modelled from the spec: the constant `v1.AttrDestinationPrefix`, the destination-scoped
prefix. -/
def AttrDestinationPrefix : String := "destination"

/-- Modelled from the spec: the constant `v1.AttrIPSuffix`, as in `<prefix>.ip`. -/
def AttrIPSuffix : String := "ip"

/-- Modelled from the spec: the constant `v1.AttrUIDSuffix`, as in `<prefix>.uid`. -/
def AttrUIDSuffix : String := "uid"

/-- Modelled from the spec: the constant `v1.AttrLabelsSuffix`, as in `<prefix>.labels`. -/
def AttrLabelsSuffix : String := "labels"

/-- Modelled from the spec: the constant `v1.AttrDestinationService`, the attribute
`destination.service`. -/
def AttrDestinationService : String := "destination.service"

/-- Modelled from the spec: the function `v1.AddStandardNodeAttributes` of the package
`pilot/pkg/proxy/envoy/v1`, the standard node attribute block: `<prefix>.ip` when the IP is
non-empty, `<prefix>.uid` always, `<prefix>.labels` when the labels are non-empty. -/
def AddStandardNodeAttributes (x : Extern) (attr : AttributeMap) (pfx IPAddress ID : String)
    (labels : GoMap String String) : AttributeMap :=
  let attr :=
    if IPAddress.length > 0 then
      attr.set (pfx ++ "." ++ AttrIPSuffix) (.BytesValue (x.ParseIP IPAddress))
    else attr
  let attr := attr.set (pfx ++ "." ++ AttrUIDSuffix) (.StringValue ("kubernetes://" ++ ID))
  if labels.length > 0 then
    attr.set (pfx ++ "." ++ AttrLabelsSuffix) (.StringMapValue labels)
  else attr

/-- Modelled from the spec: the function `v1.StandardNodeAttributes`, the standard node
attribute block in a fresh map. -/
def StandardNodeAttributes (x : Extern) (pfx IPAddress ID : String)
    (labels : GoMap String String) : AttributeMap :=
  AddStandardNodeAttributes x [] pfx IPAddress ID labels

end v1

/-! ## `pilot/pkg/networking/plugin/mixer`: the configuration builders -/

/-- The constant `mixerPortNumber`. -/
def mixerPortNumber : Nat := 9091

/-- The constant `mixerMTLSPortNumber`. -/
def mixerMTLSPortNumber : Nat := 15004

/-- The helper `attrStringValue`. -/
def attrStringValue (value : String) : AttributeValue := .StringValue value

/-- The function `nameAndNamespace`.  The index expression `domainParts[1]` panics when the
domain has no `.`; the two indexings of `parts` are guarded by `len(parts) > 1`. -/
def nameAndNamespace (serviceHostname domain : String) : Option (String × String) :=
  let domainParts := strings.SplitN domain '.' 2
  match domainParts[1]? with
  | none => none
  | some domainRest =>
    if !strings.HasSuffix serviceHostname domainRest then
      some (serviceHostname, "")
    else
      let parts := strings.Split serviceHostname '.'
      if parts.length > 1 then
        match parts[0]?, parts[1]? with
        | some name, some namespace_ => some (name, namespace_)
        | _, _ => none
      else
        some (serviceHostname, "")

/-- The function `addDestinationServiceAttributes`; the map it updates in place is returned. -/
def addDestinationServiceAttributes (attrs : AttributeMap) (destinationHostname domain : String) :
    Option AttributeMap :=
  match nameAndNamespace destinationHostname domain with
  | none => none
  | some (svcName, svcNamespace) =>
    let attrs := attrs.set "destination.service" (attrStringValue destinationHostname)
    let attrs := attrs.set "destination.service.host" (attrStringValue destinationHostname)
    let attrs := attrs.set "destination.service.uid"
      (attrStringValue ("istio://" ++ svcNamespace ++ "/services/" ++ svcName))
    let attrs := attrs.set "destination.service.name" (attrStringValue svcName)
    if svcNamespace.length > 0 then
      some (attrs.set "destination.service.namespace" (attrStringValue svcNamespace))
    else
      some attrs

/-- The function `addStandardNodeAttributes`; the map it updates in place is returned. -/
def addStandardNodeAttributes (x : Extern) (attr : AttributeMap) (pfx IPAddress ID : String)
    (labels : GoMap String String) : AttributeMap :=
  let attr :=
    if IPAddress.length > 0 then
      attr.set (pfx ++ "." ++ v1.AttrIPSuffix) (.BytesValue (x.ParseIP IPAddress))
    else attr
  let attr := attr.set (pfx ++ "." ++ v1.AttrUIDSuffix) (.StringValue ("kubernetes://" ++ ID))
  if labels.length > 0 then
    attr.set (pfx ++ "." ++ v1.AttrLabelsSuffix) (.StringMapValue labels)
  else attr

/-- The function `serviceConfig`. -/
def serviceConfig (x : Extern) (serviceHostname : String) (dest : ServiceInstance)
    (config : IstioConfigStore) (disableCheck disableReport : Bool) (proxyDomain : String) :
    Option ServiceConfig :=
  let attrs : AttributeMap := [("destination.service", attrStringValue serviceHostname)]
  let attrs :=
    if dest.Labels.length > 0 then
      attrs.set "destination.labels" (.StringMapValue dest.Labels)
    else attrs
  let apiSpecs := x.SortHTTPAPISpec (config.HTTPAPISpecByDestination dest)
  let httpApiSpec := apiSpecs.foldl (fun acc spec => acc ++ [spec]) []
  let quotaSpecs := x.SortQuotaSpec (config.QuotaSpecByDestination dest)
  let quotaSpec := quotaSpecs.foldl (fun acc spec => acc ++ [spec]) []
  match addDestinationServiceAttributes attrs serviceHostname proxyDomain with
  | none => none
  | some attrs =>
    some { MixerAttributes := { Attributes := attrs }
           DisableCheckCalls := disableCheck
           DisableReportCalls := disableReport
           HttpApiSpec := httpApiSpec
           QuotaSpec := quotaSpec }

/-- The transport of both builders: the host of the check and report servers, the port
chosen by the transport security mode, named by `model.BuildSubsetKey`. -/
def buildTransport (x : Extern) (mesh : MeshConfig) : TransportConfig :=
  let mcs := x.SplitHostPort mesh.MixerCheckServer
  let mrs := x.SplitHostPort mesh.MixerReportServer
  let port :=
    if mesh.AuthPolicy = .MUTUAL_TLS then mixerMTLSPortNumber else mixerPortNumber
  { CheckCluster := x.BuildSubsetKey .TrafficDirectionOutbound "" mcs port
    ReportCluster := x.BuildSubsetKey .TrafficDirectionOutbound "" mrs port }

/-- The last loop of `buildHTTPMixerFilterConfig`:
`mxConfig.ServiceConfigs[hostname] = serviceConfig(hostname, instance, ...)`. -/
def buildServiceConfigs (x : Extern) (config : IstioConfigStore)
    (disablePolicy disableReport : Bool) (domain : String) :
    List ServiceInstance → GoMap String ServiceConfig → Option (GoMap String ServiceConfig)
  | [], acc => some acc
  | inst :: rest, acc =>
    match serviceConfig x inst.Service.Hostname inst config disablePolicy disableReport
        domain with
    | none => none
    | some sc =>
      buildServiceConfigs x config disablePolicy disableReport domain rest
        (acc.set inst.Service.Hostname sc)

/-- The function `buildHTTPMixerFilterConfig`. -/
def buildHTTPMixerFilterConfig (x : Extern) (mesh : MeshConfig) (role : Proxy)
    (nodeInstances : List ServiceInstance) (outboundRoute : Bool)
    (config : IstioConfigStore) : Option HttpClientConfig :=
  let transport := buildTransport x mesh
  let mixerAttributes : AttributeMap :=
    [("context.reporter.uid", .StringValue ("kubernetes://" ++ role.ID))]
  let labels : GoMap String String :=
    match nodeInstances with
    | inst :: _ => inst.Labels
    | [] => []
  let defaultDestinationService : String :=
    match nodeInstances with
    | inst :: _ => inst.Service.Hostname
    | [] => ""
  let mixerAttributes :=
    if !outboundRoute || role.Type_ == .Router then
      (v1.AddStandardNodeAttributes x mixerAttributes v1.AttrDestinationPrefix role.IPAddress
        role.ID labels).set "context.reporter.local" (.BoolValue true)
    else mixerAttributes
  let forwardAttributes : Option Attributes :=
    if role.Type_ == .Sidecar && !outboundRoute then none
    else some { Attributes :=
      addStandardNodeAttributes x [] v1.AttrSourcePrefix role.IPAddress role.ID labels }
  let disablePolicy := (outboundRoute && role.Type_ != .Router) || mesh.DisablePolicyChecks
  let disableReport := outboundRoute && role.Type_ != .Router
  match buildServiceConfigs x config disablePolicy disableReport role.Domain nodeInstances
      [] with
  | none => none
  | some serviceConfigs =>
    some { MixerAttributes := { Attributes := mixerAttributes }
           ForwardAttributes := forwardAttributes
           ServiceConfigs := serviceConfigs
           Transport := transport
           DefaultDestinationService := defaultDestinationService }

/-- The function `buildTCPMixerFilterConfig`. -/
def buildTCPMixerFilterConfig (x : Extern) (mesh : MeshConfig) (role : Proxy)
    (inst : ServiceInstance) : Option TcpClientConfig :=
  let attrs := v1.StandardNodeAttributes x v1.AttrDestinationPrefix role.IPAddress role.ID []
  match addDestinationServiceAttributes attrs inst.Service.Hostname role.Domain with
  | none => none
  | some attrs =>
    let attrs := attrs.set "context.reporter.uid" (attrStringValue ("kubernetes://" ++ role.ID))
    let attrs := attrs.set "context.reporter.local" (.BoolValue true)
    some { MixerAttributes := { Attributes := attrs }
           Transport := buildTransport x mesh
           DisableCheckCalls := mesh.DisablePolicyChecks
           DisableReportCalls := false }

/-- Modelled from the spec: `model.Environment` is declared outside the shown sources; the
plugin reads the mesh configuration and the config store. -/
structure Environment where
  Mesh : MeshConfig
  IstioConfigStore : IstioConfigStore

/-- The listener kinds of `plugin.ListenerType`; `Unknown` is any other value. -/
inductive ListenerType where
  | ListenerTypeUnknown
  | ListenerTypeTCP
  | ListenerTypeHTTP
  deriving DecidableEq, Repr

/-- Modelled from the spec: `plugin.InputParams` is declared outside the shown sources; these
are the fields the plugin reads, every pointer being non-nil. -/
structure InputParams where
  ListenerType : ListenerType
  Env : Environment
  Node : Proxy
  ProxyInstances : List ServiceInstance
  ServiceInstance : ServiceInstance
  Service : Service

/-- The function `buildMixerPerRouteConfig`. -/
def buildMixerPerRouteConfig (x : Extern) (inp : InputParams) (outboundRoute : Bool)
    (_disableForward : Bool) (destinationService : String) : Option ServiceConfig :=
  let role := inp.Node
  let nodeInstances := inp.ProxyInstances
  let disableCheck := inp.Env.Mesh.DisablePolicyChecks
  let config := inp.Env.IstioConfigStore
  match serviceConfig x inp.Service.Hostname inp.ServiceInstance config disableCheck false
      role.Domain with
  | none => none
  | some out =>
    let out := { out with DisableCheckCalls := disableCheck }
    let replaced : Option ServiceConfig :=
      if destinationService != "" then
        match addDestinationServiceAttributes
            [(v1.AttrDestinationService, attrStringValue destinationService)]
            destinationService role.Domain with
        | none => none
        | some attrs => some { out with MixerAttributes := { Attributes := attrs } }
      else some out
    match replaced with
    | none => none
    | some out =>
      let labels : GoMap String String :=
        match nodeInstances with
        | inst :: _ => inst.Labels
        | [] => []
      if !outboundRoute || role.Type_ == .Router then
        let attrs := v1.AddStandardNodeAttributes x out.MixerAttributes.Attributes
          v1.AttrDestinationPrefix role.IPAddress role.ID labels
        some { out with MixerAttributes := { Attributes := attrs } }
      else some out

/-! ## `pilot/pkg/networking/plugin/mixer`: the listener callbacks -/

/-- The message `http_conn.HttpFilter` as the plugin builds it; `Config` is the message that
`util.MessageToStruct` encodes. -/
structure HttpFilter where
  Name : String
  Config : HttpClientConfig
  deriving DecidableEq, Repr

/-- The message `listener.Filter` as the plugin builds it; `Config` is the message that
`util.MessageToStruct` encodes. -/
structure Filter where
  Name : String
  Config : TcpClientConfig
  deriving DecidableEq, Repr

/-- Modelled from the spec: `plugin.FilterChain` is declared outside the shown sources; the
plugin appends to its HTTP filters, a slice of pointers (`none` is a nil pointer), and to its
TCP filters, a slice of values. -/
structure FilterChain where
  HTTP : List (Option HttpFilter)
  TCP : List Filter
  deriving DecidableEq, Repr

/-- Modelled from the spec: `plugin.MutableObjects` is declared outside the shown sources; the
plugin updates its filter chains. -/
structure MutableObjects where
  FilterChains : List FilterChain
  deriving DecidableEq, Repr

/-- The function `buildMixerHTTPFilter`; the inner `none` is the nil filter returned when
neither server is configured. -/
def buildMixerHTTPFilter (x : Extern) (env : Environment) (node : Proxy)
    (proxyInstances : List ServiceInstance) (outbound : Bool) : Option (Option HttpFilter) :=
  let mesh := env.Mesh
  let config := env.IstioConfigStore
  if mesh.MixerCheckServer == "" && mesh.MixerReportServer == "" then
    some none
  else
    match buildHTTPMixerFilterConfig x mesh node proxyInstances outbound config with
    | none => none
    | some c => some (some { Name := x.MixerFilter, Config := c })

/-- The function `buildMixerInboundTCPFilter`; the inner `none` is the nil filter returned
when neither server is configured. -/
def buildMixerInboundTCPFilter (x : Extern) (env : Environment) (node : Proxy)
    (inst : ServiceInstance) : Option (Option Filter) :=
  let mesh := env.Mesh
  if mesh.MixerCheckServer == "" && mesh.MixerReportServer == "" then
    some none
  else
    match buildTCPMixerFilterConfig x mesh node inst with
    | none => none
    | some c => some (some { Name := x.MixerFilter, Config := c })

/-- The HTTP loop of `OnOutboundListener`: the filter is appended to a chain unless it is
nil. -/
def outboundHTTPChains (x : Extern) (inp : InputParams) :
    List FilterChain → Option (List FilterChain)
  | [] => some []
  | chain :: rest =>
    match buildMixerHTTPFilter x inp.Env inp.Node inp.ProxyInstances true with
    | none => none
    | some m =>
      let chain :=
        match m with
        | some _ => { chain with HTTP := chain.HTTP ++ [m] }
        | none => chain
      match outboundHTTPChains x inp rest with
      | none => none
      | some rest => some (chain :: rest)

/-- The method `OnOutboundListener`: the updated objects, or the error for an unknown
listener type. -/
def OnOutboundListener (x : Extern) (inp : InputParams) (mutable : MutableObjects) :
    Option (Except String MutableObjects) :=
  match inp.ListenerType with
  | .ListenerTypeHTTP =>
    match outboundHTTPChains x inp mutable.FilterChains with
    | none => none
    | some chains => some (.ok { mutable with FilterChains := chains })
  | .ListenerTypeTCP => some (.ok mutable)
  | .ListenerTypeUnknown => some (.error "unknown listener type in mixer.OnOutboundListener")

/-- The HTTP loop of `OnInboundListener`: the filter is appended to every chain, without a
test for nil. -/
def inboundHTTPChains (x : Extern) (inp : InputParams) :
    List FilterChain → Option (List FilterChain)
  | [] => some []
  | chain :: rest =>
    match buildMixerHTTPFilter x inp.Env inp.Node inp.ProxyInstances false with
    | none => none
    | some m =>
      match inboundHTTPChains x inp rest with
      | none => none
      | some rest => some ({ chain with HTTP := chain.HTTP ++ [m] } :: rest)

/-- The TCP loop of `OnInboundListener`: the filter is appended to a chain unless it is
nil. -/
def inboundTCPChains (x : Extern) (inp : InputParams) :
    List FilterChain → Option (List FilterChain)
  | [] => some []
  | chain :: rest =>
    match buildMixerInboundTCPFilter x inp.Env inp.Node inp.ServiceInstance with
    | none => none
    | some m =>
      let chain :=
        match m with
        | some f => { chain with TCP := chain.TCP ++ [f] }
        | none => chain
      match inboundTCPChains x inp rest with
      | none => none
      | some rest => some (chain :: rest)

/-- The method `OnInboundListener`: the updated objects, or the error for an unknown listener
type (the message of the source names `OnOutboundListener`). -/
def OnInboundListener (x : Extern) (inp : InputParams) (mutable : MutableObjects) :
    Option (Except String MutableObjects) :=
  match inp.ListenerType with
  | .ListenerTypeHTTP =>
    match inboundHTTPChains x inp mutable.FilterChains with
    | none => none
    | some chains => some (.ok { mutable with FilterChains := chains })
  | .ListenerTypeTCP =>
    match inboundTCPChains x inp mutable.FilterChains with
    | none => none
    | some chains => some (.ok { mutable with FilterChains := chains })
  | .ListenerTypeUnknown => some (.error "unknown listener type in mixer.OnOutboundListener")

/-! ## Predicates used in the statements -/

/-- The state of the first phase after the actions `as` have been visited. -/
structure Grouped (m : GoMap HandlerRef (GoMap InstanceRef Bool)) (as : List ActionStatic) :
    Prop where
  nodup : m.keys.Nodup
  handlers : ∀ h, h ∈ m.keys ↔ ∃ a ∈ as, a.Handler = h
  sets : ∀ h v, m.get h = some v →
    v.keys.Nodup ∧ ∀ i, i ∈ v.keys ↔ ∃ a ∈ as, a.Handler = h ∧ i ∈ a.Instances

/-- The `destination.service` family of an attribute map agrees with a hostname and the name
and namespace derived from it: `destination.service` and `destination.service.host` are the
hostname, `destination.service.name` the name, `destination.service.uid` is
`istio://<namespace>/services/<name>`, and `destination.service.namespace` is the namespace
when it is non-empty and absent otherwise. -/
def DestinationServiceConsistent (attrs : AttributeMap) (hostname name namespace_ : String) :
    Prop :=
  attrs.get "destination.service" = some (.StringValue hostname) ∧
  attrs.get "destination.service.host" = some (.StringValue hostname) ∧
  attrs.get "destination.service.name" = some (.StringValue name) ∧
  attrs.get "destination.service.uid"
    = some (.StringValue ("istio://" ++ namespace_ ++ "/services/" ++ name)) ∧
  attrs.get "destination.service.namespace"
    = if namespace_ = "" then none else some (.StringValue namespace_)

/-! ## Example inputs -/

/-- A snapshot with two rules: handler `1` is fed `1, 2, 1` by one rule and `3, 2` by the
other, handler `2` is referenced by an action without instances. -/
def exampleSnapshot : Snapshot :=
  { Rules := [{ ActionsStatic := [{ Handler := 1, Instances := [1, 2, 1] },
                                  { Handler := 2, Instances := [] }] },
              { ActionsStatic := [{ Handler := 1, Instances := [3, 2] }] }] }

/-- External functions for the examples: no IP is parsed, the server string is its own host,
and a cluster is named by its host. -/
def exampleExtern : Extern :=
  { ParseIP := fun _ => []
    SplitHostPort := fun s => s
    BuildSubsetKey := fun _ _ host _ => host
    SortHTTPAPISpec := fun l => l
    SortQuotaSpec := fun l => l
    MixerFilter := "mixer" }

/-- A mesh configuration with the policy checks globally disabled. -/
def exampleMesh : MeshConfig :=
  { MixerCheckServer := "istio-policy"
    MixerReportServer := "istio-telemetry"
    DisablePolicyChecks := true
    AuthPolicy := .NONE }

/-- A mesh configuration with the policy checks enabled. -/
def exampleMeshChecked : MeshConfig :=
  { MixerCheckServer := "istio-policy"
    MixerReportServer := "istio-telemetry"
    DisablePolicyChecks := false
    AuthPolicy := .MUTUAL_TLS }

/-- A sidecar in the namespace `default`. -/
def exampleRole : Proxy :=
  { Type_ := .Sidecar
    IPAddress := "10.1.1.1"
    ID := "reviews-v1.default"
    Domain := "default.svc.cluster.local" }

/-- A sidecar whose domain is the single label `local`. -/
def exampleRoleSingleLabel : Proxy :=
  { Type_ := .Sidecar
    IPAddress := "10.1.1.1"
    ID := "reviews-v1.default"
    Domain := "local" }

/-- An instance of the service `reviews` of the namespace `default`. -/
def exampleInstance : ServiceInstance :=
  { Service := { Hostname := "reviews.default.svc.cluster.local" }
    Labels := [("app", "reviews")] }

/-- A config store without API or quota specs. -/
def exampleStore : IstioConfigStore :=
  { HTTPAPISpecByDestination := fun _ => []
    QuotaSpecByDestination := fun _ => [] }

/-- The input of a route rewrite for `exampleRole` under `exampleMesh`. -/
def exampleInput : InputParams :=
  { ListenerType := .ListenerTypeHTTP
    Env := { Mesh := exampleMesh, IstioConfigStore := exampleStore }
    Node := exampleRole
    ProxyInstances := [exampleInstance]
    ServiceInstance := exampleInstance
    Service := exampleInstance.Service }

/-- Two actions with the same handler whose instance lists are permutations of one
another. -/
def ActionStatic.Reordered (a a' : ActionStatic) : Prop :=
  a.Handler = a'.Handler ∧ a.Instances.Perm a'.Instances

/-- Two rules whose action lists are permutations of one another, up to a reordering of the
instances inside the actions. -/
def Rule.Reordered (r r' : Rule) : Prop :=
  ∃ l, List.Forall₂ ActionStatic.Reordered r.ActionsStatic l ∧ l.Perm r'.ActionsStatic

/-- Two snapshots whose rule lists are permutations of one another, up to a reordering of
the actions inside the rules and of the instances inside the actions. -/
def Snapshot.Reordered (s s' : Snapshot) : Prop :=
  ∃ l, List.Forall₂ Rule.Reordered s.Rules l ∧ l.Perm s'.Rules

/-- The snapshot `exampleSnapshot` with its rules swapped, the actions of the first rule
swapped and the instances of every action reversed. -/
def exampleSnapshotReordered : Snapshot :=
  { Rules := [{ ActionsStatic := [{ Handler := 1, Instances := [2, 3] }] },
              { ActionsStatic := [{ Handler := 2, Instances := [] },
                                  { Handler := 1, Instances := [1, 2, 1] }] }] }

/-- A mesh configuration without mixer servers. -/
def exampleMeshNoMixer : MeshConfig :=
  { MixerCheckServer := ""
    MixerReportServer := ""
    DisablePolicyChecks := false
    AuthPolicy := .NONE }

/-- The input of an HTTP listener build for `exampleRole` under `exampleMeshNoMixer`. -/
def exampleInputNoMixer : InputParams :=
  { ListenerType := .ListenerTypeHTTP
    Env := { Mesh := exampleMeshNoMixer, IstioConfigStore := exampleStore }
    Node := exampleRole
    ProxyInstances := [exampleInstance]
    ServiceInstance := exampleInstance
    Service := exampleInstance.Service }

/-- One filter chain without filters. -/
def exampleMutable : MutableObjects :=
  { FilterChains := [{ HTTP := [], TCP := [] }] }

/-- An instance of the service `ratings` of the namespace `default`, without labels. -/
def exampleInstanceNoLabels : ServiceInstance :=
  { Service := { Hostname := "ratings.default.svc.cluster.local" }
    Labels := [] }

/-! ## Properties of Go maps -/

namespace GoMap

variable {K V : Type} [DecidableEq K]

theorem get_set_self (m : GoMap K V) (k : K) (v : V) : (m.set k v).get k = some v := by
  induction m with
  | nil => simp [set, get]
  | cons p t ih =>
    obtain ⟨k', v'⟩ := p
    by_cases hk : k' = k <;> simp [set, get, hk, ih]

theorem get_set_ne (m : GoMap K V) {k k' : K} (v : V) (hne : k' ≠ k) :
    (m.set k v).get k' = m.get k' := by
  induction m with
  | nil => simp [set, get, Ne.symm hne]
  | cons p t ih =>
    obtain ⟨k₀, v₀⟩ := p
    by_cases hk : k₀ = k
    · subst hk
      simp [set, get, Ne.symm hne]
    · by_cases hk' : k₀ = k'
      · subst hk'
        simp [set, get, hk]
      · simp [set, get, hk, hk', ih]

theorem mem_keys_set (m : GoMap K V) (k k' : K) (v : V) :
    k' ∈ (m.set k v).keys ↔ k' = k ∨ k' ∈ m.keys := by
  induction m with
  | nil => simp [set, keys]
  | cons p t ih =>
    obtain ⟨k₀, v₀⟩ := p
    by_cases hk : k₀ = k
    · subst hk
      simp [set, keys]
    · simp only [keys] at ih
      simp only [set, hk, if_false, keys, List.map_cons, List.mem_cons, ih]
      tauto

theorem nodup_keys_set (m : GoMap K V) (k : K) (v : V) (hm : m.keys.Nodup) :
    (m.set k v).keys.Nodup := by
  induction m with
  | nil => simp [set, keys]
  | cons p t ih =>
    obtain ⟨k₀, v₀⟩ := p
    have hm' : k₀ ∉ keys t ∧ (keys t).Nodup := by simpa [keys] using hm
    by_cases hk : k₀ = k
    · subst hk
      simpa [set, keys] using hm
    · have hmem := mem_keys_set t k k₀ v
      have hnd := ih hm'.2
      simp only [set, hk, if_false, keys, List.map_cons, List.nodup_cons]
      simp only [keys] at hmem hnd hm'
      exact ⟨by rw [hmem]; tauto, hnd⟩

theorem mem_keys_iff_get (m : GoMap K V) (k : K) : k ∈ m.keys ↔ ∃ v, m.get k = some v := by
  induction m with
  | nil => simp [keys, get]
  | cons p t ih =>
    obtain ⟨k₀, v₀⟩ := p
    simp only [keys] at ih
    by_cases hk : k₀ = k
    · simp [keys, get, hk]
    · simp [keys, get, hk, ih, Ne.symm hk]

theorem set_of_not_mem (m : GoMap K V) (k : K) (v : V) (hk : k ∉ m.keys) :
    m.set k v = m ++ [(k, v)] := by
  induction m with
  | nil => simp [set]
  | cons p t ih =>
    obtain ⟨k₀, v₀⟩ := p
    have h' : ¬ k = k₀ ∧ k ∉ keys t := by simpa [keys] using hk
    simp [set, Ne.symm h'.1, ih h'.2]

theorem get_map_snd (f : V → W) (m : GoMap K V) (k : K) :
    GoMap.get (m.map (fun kv => (kv.1, f kv.2))) k = (m.get k).map f := by
  induction m with
  | nil => simp [get]
  | cons p t ih =>
    obtain ⟨k₀, v₀⟩ := p
    by_cases hk : k₀ = k <;> simp [get, hk, ih]

end GoMap

/-! ## Grouping instances by handler: the loop invariant -/

theorem mem_keys_addInstances (is : List InstanceRef) (m : GoMap InstanceRef Bool)
    (i : InstanceRef) : i ∈ (addInstances m is).keys ↔ i ∈ m.keys ∨ i ∈ is := by
  induction is generalizing m with
  | nil => simp [addInstances]
  | cons j t ih =>
    have hstep := ih (m.set j true)
    simp only [addInstances, List.foldl_cons] at hstep ⊢
    rw [hstep, GoMap.mem_keys_set, List.mem_cons]
    tauto

theorem nodup_keys_addInstances (is : List InstanceRef) (m : GoMap InstanceRef Bool)
    (hm : m.keys.Nodup) : (addInstances m is).keys.Nodup := by
  induction is generalizing m with
  | nil => simpa [addInstances] using hm
  | cons j t ih =>
    have hstep := ih (m.set j true) (GoMap.nodup_keys_set m j true hm)
    simpa only [addInstances, List.foldl_cons] using hstep

theorem grouped_nil : Grouped [] [] where
  nodup := by simp [GoMap.keys]
  handlers := by simp [GoMap.keys]
  sets := by simp [GoMap.get]

theorem grouped_groupAction {m : GoMap HandlerRef (GoMap InstanceRef Bool)}
    {as : List ActionStatic} (hm : Grouped m as) (a : ActionStatic) :
    Grouped (groupAction m a) (as ++ [a]) where
  nodup := GoMap.nodup_keys_set m _ _ hm.nodup
  handlers := by
    intro h
    simp only [groupAction, GoMap.mem_keys_set, hm.handlers h, List.mem_append,
      List.mem_singleton]
    constructor
    · rintro (rfl | ⟨a', ha', rfl⟩)
      · exact ⟨a, Or.inr rfl, rfl⟩
      · exact ⟨a', Or.inl ha', rfl⟩
    · rintro ⟨a', ha' | rfl, rfl⟩
      · exact Or.inr ⟨a', ha', rfl⟩
      · exact Or.inl rfl
  sets := by
    intro h v hv
    by_cases hh : h = a.Handler
    · subst hh
      simp only [groupAction, GoMap.get_set_self, Option.some.injEq] at hv
      subst hv
      cases hg : GoMap.get m a.Handler with
      | none =>
        have hnot : ¬ ∃ a' ∈ as, a'.Handler = a.Handler := by
          rw [← hm.handlers, GoMap.mem_keys_iff_get]
          simp [hg]
        refine ⟨nodup_keys_addInstances _ _ (by simp [GoMap.keys]), fun i => ?_⟩
        rw [mem_keys_addInstances]
        simp only [GoMap.keys, List.map_nil, List.not_mem_nil, false_or, List.mem_append,
          List.mem_singleton]
        constructor
        · intro hi
          exact ⟨a, Or.inr rfl, rfl, hi⟩
        · rintro ⟨a', ha' | rfl, hh', hi⟩
          · exact absurd ⟨a', ha', hh'⟩ hnot
          · exact hi
      | some found =>
        obtain ⟨hnd, hmem⟩ := hm.sets _ _ hg
        refine ⟨nodup_keys_addInstances _ _ hnd, fun i => ?_⟩
        rw [mem_keys_addInstances, hmem i]
        simp only [List.mem_append, List.mem_singleton]
        constructor
        · rintro (⟨a', ha', hh', hi⟩ | hi)
          · exact ⟨a', Or.inl ha', hh', hi⟩
          · exact ⟨a, Or.inr rfl, rfl, hi⟩
        · rintro ⟨a', ha' | rfl, hh', hi⟩
          · exact Or.inl ⟨a', ha', hh', hi⟩
          · exact Or.inr hi
    · simp only [groupAction, GoMap.get_set_ne m _ hh] at hv
      obtain ⟨hnd, hmem⟩ := hm.sets _ _ hv
      refine ⟨hnd, fun i => ?_⟩
      rw [hmem i]
      simp only [List.mem_append, List.mem_singleton]
      constructor
      · rintro ⟨a', ha', hh', hi⟩
        exact ⟨a', Or.inl ha', hh', hi⟩
      · rintro ⟨a', ha' | rfl, hh', hi⟩
        · exact ⟨a', ha', hh', hi⟩
        · exact absurd hh'.symm hh

theorem grouped_foldl (l : List ActionStatic) {m : GoMap HandlerRef (GoMap InstanceRef Bool)}
    {as : List ActionStatic} (hm : Grouped m as) :
    Grouped (l.foldl groupAction m) (as ++ l) := by
  induction l generalizing m as with
  | nil => simpa using hm
  | cons a t ih =>
    have hstep := ih (grouped_groupAction hm a)
    simpa [List.append_assoc] using hstep

theorem groupRules_foldl (rs : List Rule) (m : GoMap HandlerRef (GoMap InstanceRef Bool)) :
    rs.foldl groupRule m = (rs.flatMap Rule.ActionsStatic).foldl groupAction m := by
  induction rs generalizing m with
  | nil => rfl
  | cons r t ih => simp [List.foldl_cons, List.flatMap_cons, List.foldl_append, ih, groupRule]

theorem grouped_groupRules (s : Snapshot) : Grouped (groupRules s) s.actions := by
  have h := grouped_foldl s.actions grouped_nil
  rw [groupRules, groupRules_foldl]
  simpa [Snapshot.actions] using h

theorem materialize_foldl (l : GoMap HandlerRef (GoMap InstanceRef Bool))
    (acc : GoMap HandlerRef (List InstanceRef))
    (hnd : (GoMap.keys acc ++ GoMap.keys l).Nodup) :
    l.foldl (fun result kv => result.set kv.1 kv.2.keys) acc
      = acc ++ l.map (fun kv => (kv.1, kv.2.keys)) := by
  induction l generalizing acc with
  | nil => simp
  | cons p t ih =>
    obtain ⟨k, v⟩ := p
    have hk : k ∉ GoMap.keys acc := by
      intro hmem
      have := List.nodup_append.mp hnd
      exact this.2.2 hmem (by simp [GoMap.keys])
    rw [List.foldl_cons, GoMap.set_of_not_mem acc k _ hk, ih]
    · simp
    · have : GoMap.keys (acc ++ [(k, v.keys)]) ++ GoMap.keys t
          = GoMap.keys acc ++ GoMap.keys ((k, v) :: t) := by
        simp [GoMap.keys]
      rw [this]
      exact hnd

theorem materialize_eq_map (m : GoMap HandlerRef (GoMap InstanceRef Bool))
    (hnd : m.keys.Nodup) : materialize m = m.map (fun kv => (kv.1, kv.2.keys)) := by
  have h := materialize_foldl m [] (by simpa [GoMap.keys] using hnd)
  simpa [materialize] using h

theorem keys_materialize (m : GoMap HandlerRef (GoMap InstanceRef Bool))
    (hnd : m.keys.Nodup) : (materialize m).keys = m.keys := by
  rw [materialize_eq_map m hnd]
  simp [GoMap.keys, Function.comp_def]

theorem get_materialize (m : GoMap HandlerRef (GoMap InstanceRef Bool))
    (hnd : m.keys.Nodup) (h : HandlerRef) :
    (materialize m).get h = (m.get h).map GoMap.keys := by
  rw [materialize_eq_map m hnd]
  exact GoMap.get_map_snd GoMap.keys m h

theorem mem_fedTo (s : Snapshot) (h : HandlerRef) (i : InstanceRef) :
    i ∈ s.fedTo h ↔ ∃ a ∈ s.actions, a.Handler = h ∧ i ∈ a.Instances := by
  simp [Snapshot.fedTo, List.mem_flatMap, List.mem_filter, and_assoc]

theorem mem_actions (s : Snapshot) (a : ActionStatic) :
    a ∈ s.actions ↔ ∃ r ∈ s.Rules, a ∈ r.ActionsStatic := by
  simp [Snapshot.actions, List.mem_flatMap]

/-! ## Go strings: splitting -/

namespace strings

theorem cut_eq_none_iff (sep : Char) (s : List Char) : cut sep s = none ↔ sep ∉ s := by
  induction s with
  | nil => simp [cut]
  | cons c cs ih =>
    by_cases hc : c = sep
    · simp [cut, hc]
    · cases hcut : cut sep cs with
      | none => simpa [cut, hc, hcut, Ne.symm hc] using ih.mp hcut
      | some p =>
        have : ¬ sep ∉ cs := fun hn => by simp [ih.mpr hn] at hcut
        simpa [cut, hc, hcut, Ne.symm hc] using this

theorem cut_append (sep : Char) (a b : List Char) (ha : sep ∉ a) :
    cut sep (a ++ sep :: b) = some (a, b) := by
  induction a with
  | nil => simp [cut]
  | cons c cs ih =>
    have hc : ¬ c = sep ∧ sep ∉ cs := by
      constructor
      · rintro rfl
        exact ha (List.mem_cons_self _ _)
      · exact fun hmem => ha (List.mem_cons_of_mem _ hmem)
    simp [cut, hc.1, ih hc.2]

theorem getElem?_one_SplitN_two (s : String) (sep : Char) :
    (SplitN s sep 2)[1]? = (cut sep s.data).map (fun p => String.mk p.2) := by
  cases hcut : cut sep s.data with
  | none => simp [SplitN, genSplit, hcut]
  | some p => simp [SplitN, genSplit, hcut]

theorem hasSuffix_iff (s suffix : String) :
    HasSuffix s suffix = true ↔ ∃ p : String, s = p ++ suffix := by
  rw [HasSuffix, List.isSuffixOf_iff_suffix]
  constructor
  · rintro ⟨t, ht⟩
    exact ⟨String.mk t, String.ext (by simpa using ht.symm)⟩
  · rintro ⟨p, rfl⟩
    exact ⟨p.data, by simp⟩

end strings

/-! ## Go strings: `Split` returns the segments between the separators -/

namespace strings

theorem cut_eq_some (sep : Char) (s a b : List Char) (h : cut sep s = some (a, b)) :
    s = a ++ sep :: b ∧ sep ∉ a := by
  induction s generalizing a with
  | nil => simp [cut] at h
  | cons c cs ih =>
    by_cases hc : c = sep
    · simp only [cut, hc, if_true, Option.some.injEq, Prod.mk.injEq] at h
      obtain ⟨rfl, rfl⟩ := h
      simp [hc]
    · cases hcut : cut sep cs with
      | none => simp [cut, hc, hcut] at h
      | some p =>
        obtain ⟨a', b'⟩ := p
        simp only [cut, hc, if_false, hcut, Option.some.injEq, Prod.mk.injEq] at h
        obtain ⟨rfl, rfl⟩ := h
        obtain ⟨hs, ha⟩ := ih a' hcut
        refine ⟨by rw [hs]; rfl, ?_⟩
        simp [ha, Ne.symm hc]

theorem genSplit_spec (sep : Char) (n : Nat) (s : List Char) (hn : s.count sep = n) :
    (genSplit sep (n + 1) s).length = n + 1 ∧
    (∀ seg ∈ genSplit sep (n + 1) s, sep ∉ seg) ∧
    List.intercalate [sep] (genSplit sep (n + 1) s) = s := by
  induction n generalizing s with
  | zero =>
    have hs : sep ∉ s := List.count_eq_zero.mp hn
    simp [genSplit, hs, List.intercalate]
  | succ n ih =>
    have hmem : sep ∈ s := by
      apply List.count_pos_iff.mp
      omega
    cases hcut : cut sep s with
    | none => exact absurd hmem ((cut_eq_none_iff sep s).mp hcut)
    | some p =>
      obtain ⟨a, b⟩ := p
      obtain ⟨hs, ha⟩ := cut_eq_some sep s a b hcut
      have hb : b.count sep = n := by
        have hcount : s.count sep = b.count sep + 1 := by
          rw [hs, List.count_append, List.count_eq_zero.mpr ha]
          simp
        omega
      obtain ⟨hlen, hseg, hjoin⟩ := ih b hb
      simp only [genSplit, hcut]
      refine ⟨by simp [hlen], ?_, ?_⟩
      · intro seg hmem'
        rcases List.mem_cons.mp hmem' with rfl | h
        · exact ha
        · exact hseg seg h
      · cases hg : genSplit sep (n + 1) b with
        | nil => simp [hg] at hlen
        | cons g gs =>
          rw [hg] at hjoin
          rw [hs, ← hjoin]
          simp [List.intercalate, List.intersperse]

/-- The function `Split` cuts a string at every separator: there is one segment more than there are
separators, no segment holds the separator, and the segments joined by the separator give
the string back. -/
theorem Split_spec (s : String) (sep : Char) :
    (Split s sep).length = s.data.count sep + 1 ∧
    (∀ seg ∈ Split s sep, sep ∉ seg.data) ∧
    List.intercalate [sep] ((Split s sep).map String.data) = s.data := by
  obtain ⟨hlen, hseg, hjoin⟩ := genSplit_spec sep (s.data.count sep) s.data rfl
  refine ⟨by simp [Split, hlen], ?_, ?_⟩
  · intro seg hmem
    simp only [Split, List.mem_map] at hmem
    obtain ⟨l, hl, rfl⟩ := hmem
    exact hseg l hl
  · have : (Split s sep).map String.data = genSplit sep (s.data.count sep + 1) s.data := by
      simp [Split, Function.comp_def]
    rw [this, hjoin]

end strings

/-! ## `nameAndNamespace` -/

theorem nameAndNamespace_of_no_dot (serviceHostname domain : String)
    (hd : '.' ∉ domain.data) : nameAndNamespace serviceHostname domain = none := by
  have hcut := (strings.cut_eq_none_iff '.' domain.data).mpr hd
  simp [nameAndNamespace, strings.getElem?_one_SplitN_two, hcut]

theorem nameAndNamespace_of_dot (serviceHostname domain first rest : String)
    (hf : '.' ∉ first.data) (hd : domain = first ++ "." ++ rest) :
    nameAndNamespace serviceHostname domain =
      if strings.HasSuffix serviceHostname rest = false then some (serviceHostname, "")
      else match strings.Split serviceHostname '.' with
        | name :: namespace_ :: _ => some (name, namespace_)
        | _ => some (serviceHostname, "") := by
  have hdata : domain.data = first.data ++ '.' :: rest.data := by
    subst hd
    simp [String.data_append]
  have hcut : strings.cut '.' domain.data = some (first.data, rest.data) := by
    rw [hdata]
    exact strings.cut_append '.' _ _ hf
  simp only [nameAndNamespace, strings.getElem?_one_SplitN_two, hcut, Option.map_some']
  cases hs : strings.HasSuffix serviceHostname rest with
  | false => simp [hs]
  | true =>
    rcases strings.Split serviceHostname '.' with _ | ⟨p0, _ | ⟨p1, tl⟩⟩ <;> simp

/-! ## `GetInstancesGroupedByHandlers` -/

/-- C1: the keys of `GetInstancesGroupedByHandlers s` are pairwise distinct and are exactly
the handlers referenced by some action of some rule of `s`; every such handler is mapped to a
list whose elements are exactly the instances listed by the actions (of any rule) whose
handler it is; a snapshot without rules gives the empty map. -/
theorem getInstancesGroupedByHandlers_spec (s : Snapshot) :
    (GetInstancesGroupedByHandlers s).keys.Nodup ∧
    (∀ h, h ∈ (GetInstancesGroupedByHandlers s).keys ↔
      ∃ r ∈ s.Rules, ∃ a ∈ r.ActionsStatic, a.Handler = h) ∧
    (∀ h, h ∈ (GetInstancesGroupedByHandlers s).keys →
      ∃ l, (GetInstancesGroupedByHandlers s).get h = some l ∧
        ∀ i, i ∈ l ↔ ∃ r ∈ s.Rules, ∃ a ∈ r.ActionsStatic, a.Handler = h ∧ i ∈ a.Instances) ∧
    (s.Rules = [] → GetInstancesGroupedByHandlers s = []) := by
  have hg := grouped_groupRules s
  have hkeys := keys_materialize _ hg.nodup
  have hact : ∀ (P : ActionStatic → Prop),
      (∃ a ∈ s.actions, P a) ↔ ∃ r ∈ s.Rules, ∃ a ∈ r.ActionsStatic, P a := by
    intro P
    constructor
    · rintro ⟨a, ha, hp⟩
      obtain ⟨r, hr, har⟩ := (mem_actions s a).mp ha
      exact ⟨r, hr, a, har, hp⟩
    · rintro ⟨r, hr, a, har, hp⟩
      exact ⟨a, (mem_actions s a).mpr ⟨r, hr, har⟩, hp⟩
  refine ⟨?_, ?_, ?_, ?_⟩
  · rw [GetInstancesGroupedByHandlers, hkeys]
    exact hg.nodup
  · intro h
    rw [GetInstancesGroupedByHandlers, hkeys, hg.handlers h]
    exact hact _
  · intro h hh
    rw [GetInstancesGroupedByHandlers, hkeys] at hh
    obtain ⟨v, hv⟩ := (GoMap.mem_keys_iff_get _ h).mp hh
    refine ⟨v.keys, ?_, fun i => ?_⟩
    · rw [GetInstancesGroupedByHandlers, get_materialize _ hg.nodup, hv]
      rfl
    · rw [(hg.sets h v hv).2 i]
      exact hact _
  · intro hr
    simp [GetInstancesGroupedByHandlers, groupRules, materialize, hr]

/-- On `exampleSnapshot`, handler `1` is a key of the result and is mapped to a list with
exactly the instances fed to it. -/
theorem getInstancesGroupedByHandlers_spec_witness :
    ∃ l, (GetInstancesGroupedByHandlers exampleSnapshot).get 1 = some l ∧
      ∀ i, i ∈ l ↔ ∃ r ∈ exampleSnapshot.Rules, ∃ a ∈ r.ActionsStatic,
        a.Handler = 1 ∧ i ∈ a.Instances :=
  (getInstancesGroupedByHandlers_spec exampleSnapshot).2.2.1 1 (by decide)

/-- C2: the list returned for a handler holds no instance twice, and its length is the number
of distinct instances fed to the handler. -/
theorem getInstancesGroupedByHandlers_dedup (s : Snapshot) (h : HandlerRef)
    (l : List InstanceRef) (hl : (GetInstancesGroupedByHandlers s).get h = some l) :
    l.Nodup ∧ l.length = (s.fedTo h).toFinset.card := by
  have hg := grouped_groupRules s
  rw [GetInstancesGroupedByHandlers, get_materialize _ hg.nodup] at hl
  cases hv : GoMap.get (groupRules s) h with
  | none => simp [hv] at hl
  | some v =>
    simp only [hv, Option.map_some', Option.some.injEq] at hl
    subst hl
    obtain ⟨hnd, hmem⟩ := hg.sets h v hv
    refine ⟨hnd, ?_⟩
    rw [← List.toFinset_card_of_nodup hnd]
    congr 1
    ext i
    simp only [List.mem_toFinset, hmem i, mem_fedTo]

/-- On `exampleSnapshot`, handler `1` is fed `1, 2, 1, 3, 2` and receives the three distinct
instances `1, 2, 3`. -/
theorem getInstancesGroupedByHandlers_dedup_witness :
    (GetInstancesGroupedByHandlers exampleSnapshot).get 1 = some [1, 2, 3] ∧
    exampleSnapshot.fedTo 1 = [1, 2, 1, 3, 2] ∧
    ([1, 2, 3] : List InstanceRef).Nodup ∧
    ([1, 2, 3] : List InstanceRef).length = (exampleSnapshot.fedTo 1).toFinset.card :=
  ⟨by decide, by decide,
    getInstancesGroupedByHandlers_dedup exampleSnapshot 1 [1, 2, 3] (by decide)⟩

/-! ## The destination-service attributes -/

theorem GoMap.get_set {K V : Type} [DecidableEq K] (m : GoMap K V) (k k' : K) (v : V) :
    (m.set k v).get k' = if k' = k then some v else m.get k' := by
  by_cases h : k' = k
  · subst h
    simp [GoMap.get_set_self]
  · simp [h, GoMap.get_set_ne m v h]

theorem string_length_pos_iff (s : String) : s.length > 0 ↔ s ≠ "" := by
  cases s with
  | mk data => cases data <;> simp [String.length, String.ext_iff]

theorem addDestinationServiceAttributes_of_some (attrs : AttributeMap)
    (destinationHostname domain name namespace_ : String)
    (hn : nameAndNamespace destinationHostname domain = some (name, namespace_)) :
    ∃ attrs', addDestinationServiceAttributes attrs destinationHostname domain = some attrs' ∧
      attrs'.get "destination.service" = some (.StringValue destinationHostname) ∧
      attrs'.get "destination.service.host" = some (.StringValue destinationHostname) ∧
      attrs'.get "destination.service.name" = some (.StringValue name) ∧
      attrs'.get "destination.service.uid"
        = some (.StringValue ("istio://" ++ namespace_ ++ "/services/" ++ name)) ∧
      attrs'.get "destination.service.namespace"
        = (if namespace_ = "" then attrs.get "destination.service.namespace"
           else some (.StringValue namespace_)) ∧
      ∀ k, k ≠ "destination.service" → k ≠ "destination.service.host" →
        k ≠ "destination.service.name" → k ≠ "destination.service.uid" →
        k ≠ "destination.service.namespace" → attrs'.get k = attrs.get k := by
  by_cases hns : namespace_ = ""
  · have hlen : ¬ namespace_.length > 0 := by
      rw [string_length_pos_iff]
      simpa using hns
    refine ⟨_, by simp only [addDestinationServiceAttributes, hn, hlen, if_false]; rfl, ?_⟩
    simp only [GoMap.get_set, attrStringValue, hns, if_true]
    refine ⟨by simp, by simp, by simp, by simp, by simp, ?_⟩
    intro k h1 h2 h3 h4 _
    simp [h1, h2, h3, h4]
  · have hlen : namespace_.length > 0 := (string_length_pos_iff _).mpr hns
    refine ⟨_, by simp only [addDestinationServiceAttributes, hn, hlen, if_true]; rfl, ?_⟩
    simp only [GoMap.get_set, attrStringValue, hns, if_false]
    refine ⟨by simp, by simp, by simp, by simp, by simp, ?_⟩
    intro k h1 h2 h3 h4 h5
    simp [h1, h2, h3, h4, h5]

theorem addDestinationServiceAttributes_of_none (attrs : AttributeMap)
    (destinationHostname domain : String)
    (hn : nameAndNamespace destinationHostname domain = none) :
    addDestinationServiceAttributes attrs destinationHostname domain = none := by
  simp [addDestinationServiceAttributes, hn]

theorem nameAndNamespace_isSome_of_dot (serviceHostname domain : String)
    (hd : '.' ∈ domain.data) : ∃ p, nameAndNamespace serviceHostname domain = some p := by
  cases hcut : strings.cut '.' domain.data with
  | none => exact absurd hd ((strings.cut_eq_none_iff _ _).mp hcut)
  | some p =>
    simp only [nameAndNamespace, strings.getElem?_one_SplitN_two, hcut, Option.map_some']
    split
    · exact ⟨_, rfl⟩
    · rcases strings.Split serviceHostname '.' with _ | ⟨p0, _ | ⟨p1, tl⟩⟩ <;> simp

/-! ## `serviceConfig` and the service configurations of the HTTP filter -/

theorem GoMap.mem_set {K V : Type} [DecidableEq K] (m : GoMap K V) (k : K) (v : V)
    (e : K × V) (he : e ∈ m.set k v) : e = (k, v) ∨ e ∈ m := by
  induction m with
  | nil => simpa [GoMap.set] using he
  | cons p t ih =>
    obtain ⟨k₀, v₀⟩ := p
    by_cases hk : k₀ = k
    · simp only [GoMap.set, hk, if_true, List.mem_cons] at he
      rcases he with he | he
      · exact Or.inl he
      · exact Or.inr (List.mem_cons_of_mem _ he)
    · simp only [GoMap.set, hk, if_false, List.mem_cons] at he
      rcases he with he | he
      · exact Or.inr (he ▸ List.mem_cons_self _ _)
      · rcases ih he with h | h
        · exact Or.inl h
        · exact Or.inr (List.mem_cons_of_mem _ h)

theorem serviceConfig_flags (x : Extern) (serviceHostname : String) (dest : ServiceInstance)
    (config : IstioConfigStore) (disableCheck disableReport : Bool) (proxyDomain : String)
    (sc : ServiceConfig)
    (hsc : serviceConfig x serviceHostname dest config disableCheck disableReport proxyDomain
      = some sc) :
    sc.DisableCheckCalls = disableCheck ∧ sc.DisableReportCalls = disableReport := by
  unfold serviceConfig at hsc
  simp only at hsc
  split at hsc
  · exact absurd hsc (by simp)
  · simp only [Option.some.injEq] at hsc
    subst hsc
    exact ⟨rfl, rfl⟩

theorem serviceConfig_of_none (x : Extern) (serviceHostname : String) (dest : ServiceInstance)
    (config : IstioConfigStore) (disableCheck disableReport : Bool) (proxyDomain : String)
    (hn : nameAndNamespace serviceHostname proxyDomain = none) :
    serviceConfig x serviceHostname dest config disableCheck disableReport proxyDomain
      = none := by
  simp [serviceConfig, addDestinationServiceAttributes_of_none _ _ _ hn]

theorem serviceConfig_of_some (x : Extern) (serviceHostname : String) (dest : ServiceInstance)
    (config : IstioConfigStore) (disableCheck disableReport : Bool)
    (proxyDomain name namespace_ : String)
    (hn : nameAndNamespace serviceHostname proxyDomain = some (name, namespace_)) :
    ∃ sc, serviceConfig x serviceHostname dest config disableCheck disableReport proxyDomain
        = some sc ∧
      DestinationServiceConsistent sc.MixerAttributes.Attributes serviceHostname name
        namespace_ ∧
      sc.MixerAttributes.Attributes.get "destination.labels"
        = if dest.Labels.length > 0 then some (.StringMapValue dest.Labels) else none := by
  by_cases hl : dest.Labels.length > 0
  · obtain ⟨attrs', hadd, h1, h2, h3, h4, h5, hframe⟩ :=
      addDestinationServiceAttributes_of_some
        (GoMap.set [("destination.service", attrStringValue serviceHostname)]
          "destination.labels" (.StringMapValue dest.Labels))
        serviceHostname proxyDomain name namespace_ hn
    refine ⟨_, by simp only [serviceConfig, hl, if_true, hadd]; rfl, ?_, ?_⟩
    · refine ⟨h1, h2, h3, h4, ?_⟩
      simpa [GoMap.get_set, GoMap.get] using h5
    · have := hframe "destination.labels" (by simp) (by simp) (by simp) (by simp) (by simp)
      simpa [GoMap.get_set, hl] using this
  · obtain ⟨attrs', hadd, h1, h2, h3, h4, h5, hframe⟩ :=
      addDestinationServiceAttributes_of_some
        [("destination.service", attrStringValue serviceHostname)]
        serviceHostname proxyDomain name namespace_ hn
    refine ⟨_, by simp only [serviceConfig, hl, if_false, hadd]; rfl, ?_, ?_⟩
    · refine ⟨h1, h2, h3, h4, ?_⟩
      simpa [GoMap.get] using h5
    · have := hframe "destination.labels" (by simp) (by simp) (by simp) (by simp) (by simp)
      simpa [GoMap.get, hl] using this

theorem buildServiceConfigs_entries (x : Extern) (config : IstioConfigStore)
    (disablePolicy disableReport : Bool) (domain : String) (P : String × ServiceConfig → Prop)
    (hP : ∀ (inst : ServiceInstance) sc,
      serviceConfig x inst.Service.Hostname inst config disablePolicy disableReport domain
        = some sc → P (inst.Service.Hostname, sc))
    (l : List ServiceInstance) (acc r : GoMap String ServiceConfig)
    (hacc : ∀ e ∈ acc, P e)
    (hr : buildServiceConfigs x config disablePolicy disableReport domain l acc = some r) :
    ∀ e ∈ r, P e := by
  induction l generalizing acc with
  | nil =>
    simp only [buildServiceConfigs, Option.some.injEq] at hr
    subst hr
    exact hacc
  | cons inst rest ih =>
    cases hsc : serviceConfig x inst.Service.Hostname inst config disablePolicy disableReport
        domain with
    | none => simp [buildServiceConfigs, hsc] at hr
    | some sc =>
      simp only [buildServiceConfigs, hsc] at hr
      refine ih (acc.set inst.Service.Hostname sc) ?_ hr
      intro e he
      rcases GoMap.mem_set _ _ _ _ he with h | h
      · rw [h]
        exact hP inst sc hsc
      · exact hacc e h

theorem buildServiceConfigs_isSome_of_dot (x : Extern) (config : IstioConfigStore)
    (disablePolicy disableReport : Bool) (domain : String) (hd : '.' ∈ domain.data)
    (l : List ServiceInstance) (acc : GoMap String ServiceConfig) :
    ∃ r, buildServiceConfigs x config disablePolicy disableReport domain l acc = some r := by
  induction l generalizing acc with
  | nil => exact ⟨acc, rfl⟩
  | cons inst rest ih =>
    obtain ⟨⟨n, ns⟩, hn⟩ := nameAndNamespace_isSome_of_dot inst.Service.Hostname domain hd
    obtain ⟨sc, hsc, -⟩ := serviceConfig_of_some x inst.Service.Hostname inst config
      disablePolicy disableReport domain n ns hn
    simp only [buildServiceConfigs, hsc]
    exact ih _

theorem buildServiceConfigs_none_of_no_dot (x : Extern) (config : IstioConfigStore)
    (disablePolicy disableReport : Bool) (domain : String) (hd : '.' ∉ domain.data)
    (inst : ServiceInstance) (rest : List ServiceInstance) (acc : GoMap String ServiceConfig) :
    buildServiceConfigs x config disablePolicy disableReport domain (inst :: rest) acc
      = none := by
  simp [buildServiceConfigs, serviceConfig_of_none x _ inst config disablePolicy disableReport
    domain (nameAndNamespace_of_no_dot _ _ hd)]

theorem buildHTTPMixerFilterConfig_serviceConfigs (x : Extern) (mesh : MeshConfig)
    (role : Proxy) (nodeInstances : List ServiceInstance) (outboundRoute : Bool)
    (config : IstioConfigStore) (r : HttpClientConfig)
    (hr : buildHTTPMixerFilterConfig x mesh role nodeInstances outboundRoute config = some r) :
    buildServiceConfigs x config
      ((outboundRoute && role.Type_ != .Router) || mesh.DisablePolicyChecks)
      (outboundRoute && role.Type_ != .Router) role.Domain nodeInstances []
      = some r.ServiceConfigs := by
  unfold buildHTTPMixerFilterConfig at hr
  simp only at hr
  split at hr
  · exact absurd hr (by simp)
  · rename_i scs hscs
    simp only [Option.some.injEq] at hr
    subst hr
    exact hscs

/-! ## The filter configurations -/

theorem buildTCPMixerFilterConfig_flags (x : Extern) (mesh : MeshConfig) (role : Proxy)
    (inst : ServiceInstance) (c : TcpClientConfig)
    (hc : buildTCPMixerFilterConfig x mesh role inst = some c) :
    c.DisableCheckCalls = mesh.DisablePolicyChecks ∧ c.DisableReportCalls = false ∧
      c.Transport = buildTransport x mesh := by
  unfold buildTCPMixerFilterConfig at hc
  simp only at hc
  split at hc
  · exact absurd hc (by simp)
  · simp only [Option.some.injEq] at hc
    subst hc
    exact ⟨rfl, rfl, rfl⟩

theorem buildTCPMixerFilterConfig_isSome_of_dot (x : Extern) (mesh : MeshConfig) (role : Proxy)
    (inst : ServiceInstance) (hd : '.' ∈ role.Domain.data) :
    ∃ c, buildTCPMixerFilterConfig x mesh role inst = some c := by
  obtain ⟨⟨n, ns⟩, hn⟩ := nameAndNamespace_isSome_of_dot inst.Service.Hostname role.Domain hd
  obtain ⟨attrs', hadd, -⟩ := addDestinationServiceAttributes_of_some
    (v1.StandardNodeAttributes x v1.AttrDestinationPrefix role.IPAddress role.ID [])
    inst.Service.Hostname role.Domain n ns hn
  exact ⟨_, by simp only [buildTCPMixerFilterConfig, hadd]; rfl⟩

theorem buildMixerPerRouteConfig_flags (x : Extern) (inp : InputParams)
    (outboundRoute disableForward : Bool) (destinationService : String) (sc : ServiceConfig)
    (hsc : buildMixerPerRouteConfig x inp outboundRoute disableForward destinationService
      = some sc) :
    sc.DisableCheckCalls = inp.Env.Mesh.DisablePolicyChecks ∧ sc.DisableReportCalls = false := by
  unfold buildMixerPerRouteConfig at hsc
  simp only at hsc
  split at hsc
  · exact absurd hsc (by simp)
  · rename_i out hout
    have hflags := serviceConfig_flags _ _ _ _ _ _ _ _ hout
    split at hsc
    · exact absurd hsc (by simp)
    · rename_i out' hout'
      have hrep : out'.DisableCheckCalls = inp.Env.Mesh.DisablePolicyChecks ∧
          out'.DisableReportCalls = false := by
        split at hout'
        · split at hout'
          · exact absurd hout' (by simp)
          · simp only [Option.some.injEq] at hout'
            subst hout'
            exact ⟨rfl, hflags.2⟩
        · simp only [Option.some.injEq] at hout'
          subst hout'
          exact ⟨rfl, hflags.2⟩
      split at hsc
      · simp only [Option.some.injEq] at hsc
        subst hsc
        exact hrep
      · simp only [Option.some.injEq] at hsc
        subst hsc
        exact hrep

theorem buildMixerPerRouteConfig_isSome_of_dot (x : Extern) (inp : InputParams)
    (outboundRoute disableForward : Bool) (destinationService : String)
    (hd : '.' ∈ inp.Node.Domain.data) :
    ∃ sc, buildMixerPerRouteConfig x inp outboundRoute disableForward destinationService
      = some sc := by
  obtain ⟨⟨n, ns⟩, hn⟩ := nameAndNamespace_isSome_of_dot inp.Service.Hostname inp.Node.Domain hd
  obtain ⟨out, hout, -⟩ := serviceConfig_of_some x inp.Service.Hostname inp.ServiceInstance
    inp.Env.IstioConfigStore inp.Env.Mesh.DisablePolicyChecks false inp.Node.Domain n ns hn
  obtain ⟨⟨n', ns'⟩, hn'⟩ := nameAndNamespace_isSome_of_dot destinationService inp.Node.Domain hd
  obtain ⟨attrs', hadd, -⟩ := addDestinationServiceAttributes_of_some
    [(v1.AttrDestinationService, attrStringValue destinationService)]
    destinationService inp.Node.Domain n' ns' hn'
  unfold buildMixerPerRouteConfig
  simp only [hout, hadd]
  by_cases hds : (destinationService != "") = true <;>
    by_cases hob : (!outboundRoute || inp.Node.Type_ == NodeType.Router) = true <;>
    simp only [hds, hob, if_true, if_false] <;> exact ⟨_, rfl⟩

theorem buildHTTPMixerFilterConfig_isSome_of_dot (x : Extern) (mesh : MeshConfig)
    (role : Proxy) (nodeInstances : List ServiceInstance) (outboundRoute : Bool)
    (config : IstioConfigStore) (hd : '.' ∈ role.Domain.data) :
    ∃ r, buildHTTPMixerFilterConfig x mesh role nodeInstances outboundRoute config
      = some r := by
  obtain ⟨scs, hscs⟩ := buildServiceConfigs_isSome_of_dot x config
    ((outboundRoute && role.Type_ != .Router) || mesh.DisablePolicyChecks)
    (outboundRoute && role.Type_ != .Router) role.Domain hd nodeInstances []
  exact ⟨_, by simp only [buildHTTPMixerFilterConfig, hscs]; rfl⟩

theorem buildHTTPMixerFilterConfig_entry_flags (x : Extern) (mesh : MeshConfig)
    (role : Proxy) (nodeInstances : List ServiceInstance) (outboundRoute : Bool)
    (config : IstioConfigStore) (r : HttpClientConfig)
    (hr : buildHTTPMixerFilterConfig x mesh role nodeInstances outboundRoute config = some r)
    (e : String × ServiceConfig) (he : e ∈ r.ServiceConfigs) :
    e.2.DisableCheckCalls
      = ((outboundRoute && role.Type_ != .Router) || mesh.DisablePolicyChecks) ∧
    e.2.DisableReportCalls = (outboundRoute && role.Type_ != .Router) :=
  buildServiceConfigs_entries x config _ _ role.Domain
    (fun e => e.2.DisableCheckCalls
        = ((outboundRoute && role.Type_ != .Router) || mesh.DisablePolicyChecks) ∧
      e.2.DisableReportCalls = (outboundRoute && role.Type_ != .Router))
    (fun _ _ hsc => serviceConfig_flags _ _ _ _ _ _ _ _ hsc)
    nodeInstances [] r.ServiceConfigs (by simp)
    (buildHTTPMixerFilterConfig_serviceConfigs x mesh role nodeInstances outboundRoute config
      r hr) e he

/-- C3: every entry of `ServiceConfigs` in the result of `buildHTTPMixerFilterConfig` has
`DisableCheckCalls = ((outboundRoute && role.Type != Router) || mesh.DisablePolicyChecks)` and
`DisableReportCalls = (outboundRoute && role.Type != Router)`; so an outbound sidecar has both
disabled, an outbound router has neither disabled when the global toggle is off, and an
inbound listener has reports enabled and checks disabled exactly by the global toggle.  The
result exists whenever the domain of the role contains a `.`. -/
theorem buildHTTPMixerFilterConfig_disable_flags (x : Extern) (mesh : MeshConfig)
    (role : Proxy) (nodeInstances : List ServiceInstance) (outboundRoute : Bool)
    (config : IstioConfigStore) :
    ('.' ∈ role.Domain.data →
      ∃ r, buildHTTPMixerFilterConfig x mesh role nodeInstances outboundRoute config = some r) ∧
    ∀ r, buildHTTPMixerFilterConfig x mesh role nodeInstances outboundRoute config = some r →
      ∀ e ∈ r.ServiceConfigs,
        e.2.DisableCheckCalls
          = ((outboundRoute && role.Type_ != .Router) || mesh.DisablePolicyChecks) ∧
        e.2.DisableReportCalls = (outboundRoute && role.Type_ != .Router) ∧
        (outboundRoute = true → role.Type_ = .Sidecar →
          e.2.DisableCheckCalls = true ∧ e.2.DisableReportCalls = true) ∧
        (outboundRoute = true → role.Type_ = .Router → mesh.DisablePolicyChecks = false →
          e.2.DisableCheckCalls = false ∧ e.2.DisableReportCalls = false) ∧
        (outboundRoute = false →
          e.2.DisableCheckCalls = mesh.DisablePolicyChecks ∧
          e.2.DisableReportCalls = false) := by
  constructor
  · intro hd
    obtain ⟨scs, hscs⟩ := buildServiceConfigs_isSome_of_dot x config
      ((outboundRoute && role.Type_ != .Router) || mesh.DisablePolicyChecks)
      (outboundRoute && role.Type_ != .Router) role.Domain hd nodeInstances []
    exact ⟨_, by simp only [buildHTTPMixerFilterConfig, hscs]; rfl⟩
  · intro r hr e he
    have hscs := buildHTTPMixerFilterConfig_serviceConfigs x mesh role nodeInstances
      outboundRoute config r hr
    have hflags := buildServiceConfigs_entries x config _ _ role.Domain
      (fun e => e.2.DisableCheckCalls
          = ((outboundRoute && role.Type_ != .Router) || mesh.DisablePolicyChecks) ∧
        e.2.DisableReportCalls = (outboundRoute && role.Type_ != .Router))
      (fun inst sc hsc => serviceConfig_flags _ _ _ _ _ _ _ _ hsc)
      nodeInstances [] r.ServiceConfigs (by simp) hscs e he
    obtain ⟨hc, hrp⟩ := hflags
    refine ⟨hc, hrp, ?_, ?_, ?_⟩
    · intro ho ht
      rw [hc, hrp, ho, ht]
      exact ⟨rfl, rfl⟩
    · intro ho ht hm
      rw [hc, hrp, ho, ht, hm]
      exact ⟨rfl, rfl⟩
    · intro ho
      rw [hc, hrp, ho]
      simp

/-- For the outbound listener of the sidecar `exampleRole`, the configuration exists and
every service configuration has checks and reports disabled. -/
theorem buildHTTPMixerFilterConfig_disable_flags_witness :
    ∃ r, buildHTTPMixerFilterConfig exampleExtern exampleMeshChecked exampleRole
        [exampleInstance] true exampleStore = some r ∧
      ∀ e ∈ r.ServiceConfigs, e.2.DisableCheckCalls = true ∧ e.2.DisableReportCalls = true := by
  obtain ⟨r, hr⟩ := (buildHTTPMixerFilterConfig_disable_flags exampleExtern exampleMeshChecked
    exampleRole [exampleInstance] true exampleStore).1 (by decide)
  exact ⟨r, hr, fun e he =>
    ((buildHTTPMixerFilterConfig_disable_flags exampleExtern exampleMeshChecked exampleRole
      [exampleInstance] true exampleStore).2 r hr e he).2.2.1 rfl rfl⟩

/-- C4: when the mesh disables the policy checks, every service configuration of the HTTP
filter configuration (whatever the role and the direction), the TCP filter configuration and
the per-route service configuration have `DisableCheckCalls = true`; all three exist whenever
the domain of the role contains a `.`. -/
theorem disablePolicyChecks_monotone (x : Extern) (mesh : MeshConfig) (role : Proxy)
    (nodeInstances : List ServiceInstance) (outboundRoute : Bool) (config : IstioConfigStore)
    (inst : ServiceInstance) (inp : InputParams) (perRouteOutbound disableForward : Bool)
    (destinationService : String)
    (hmesh : mesh.DisablePolicyChecks = true)
    (hinp : inp.Env.Mesh.DisablePolicyChecks = true) :
    (∀ r, buildHTTPMixerFilterConfig x mesh role nodeInstances outboundRoute config = some r →
      ∀ e ∈ r.ServiceConfigs, e.2.DisableCheckCalls = true) ∧
    (∀ c, buildTCPMixerFilterConfig x mesh role inst = some c → c.DisableCheckCalls = true) ∧
    (∀ sc, buildMixerPerRouteConfig x inp perRouteOutbound disableForward destinationService
      = some sc → sc.DisableCheckCalls = true) ∧
    ('.' ∈ role.Domain.data →
      (∃ r, buildHTTPMixerFilterConfig x mesh role nodeInstances outboundRoute config
        = some r) ∧
      ∃ c, buildTCPMixerFilterConfig x mesh role inst = some c) ∧
    ('.' ∈ inp.Node.Domain.data →
      ∃ sc, buildMixerPerRouteConfig x inp perRouteOutbound disableForward destinationService
        = some sc) := by
  refine ⟨?_, ?_, ?_, ?_, ?_⟩
  · intro r hr e he
    have h := (buildHTTPMixerFilterConfig_entry_flags x mesh role nodeInstances
      outboundRoute config r hr e he).1
    rw [h, hmesh]
    simp
  · intro c hc
    rw [(buildTCPMixerFilterConfig_flags x mesh role inst c hc).1, hmesh]
  · intro sc hsc
    rw [(buildMixerPerRouteConfig_flags x inp perRouteOutbound disableForward
      destinationService sc hsc).1, hinp]
  · intro hd
    exact ⟨buildHTTPMixerFilterConfig_isSome_of_dot x mesh role nodeInstances outboundRoute
      config hd, buildTCPMixerFilterConfig_isSome_of_dot x mesh role inst hd⟩
  · intro hd
    exact buildMixerPerRouteConfig_isSome_of_dot x inp perRouteOutbound disableForward
      destinationService hd

/-- Under `exampleMesh`, which disables the policy checks, the inbound HTTP configuration of
`exampleRole`, its TCP configuration and its per-route configuration exist and all have the
checks disabled. -/
theorem disablePolicyChecks_monotone_witness :
    (∃ r, buildHTTPMixerFilterConfig exampleExtern exampleMesh exampleRole [exampleInstance]
        false exampleStore = some r ∧ ∀ e ∈ r.ServiceConfigs, e.2.DisableCheckCalls = true) ∧
    (∃ c, buildTCPMixerFilterConfig exampleExtern exampleMesh exampleRole exampleInstance
        = some c ∧ c.DisableCheckCalls = true) ∧
    (∃ sc, buildMixerPerRouteConfig exampleExtern exampleInput false false
        "reviews.default.svc.cluster.local" = some sc ∧ sc.DisableCheckCalls = true) := by
  have h := disablePolicyChecks_monotone exampleExtern exampleMesh exampleRole
    [exampleInstance] false exampleStore exampleInstance exampleInput false false
    "reviews.default.svc.cluster.local" rfl rfl
  obtain ⟨hhttp, htcp, hroute, hex, hexr⟩ := h
  obtain ⟨⟨r, hr⟩, ⟨c, hc⟩⟩ := hex (by decide)
  obtain ⟨sc, hsc⟩ := hexr (by decide)
  exact ⟨⟨r, hr, hhttp r hr⟩, ⟨c, hc, htcp c hc⟩, ⟨sc, hsc, hroute sc hsc⟩⟩

/-! ## The destination-service expansion -/

theorem standardNodeAttributes_namespace (x : Extern) (IPAddress ID : String) :
    GoMap.get (v1.StandardNodeAttributes x v1.AttrDestinationPrefix IPAddress ID [])
      "destination.service.namespace" = none := by
  by_cases hip : IPAddress.length > 0 <;>
    simp [v1.StandardNodeAttributes, v1.AddStandardNodeAttributes, v1.AttrDestinationPrefix,
      v1.AttrIPSuffix, v1.AttrUIDSuffix, GoMap.get_set, GoMap.get, hip]

theorem buildTCPMixerFilterConfig_of_some (x : Extern) (mesh : MeshConfig) (role : Proxy)
    (inst : ServiceInstance) (name namespace_ : String)
    (hn : nameAndNamespace inst.Service.Hostname role.Domain = some (name, namespace_)) :
    ∃ c, buildTCPMixerFilterConfig x mesh role inst = some c ∧
      DestinationServiceConsistent c.MixerAttributes.Attributes inst.Service.Hostname name
        namespace_ := by
  obtain ⟨attrs', hadd, h1, h2, h3, h4, h5, -⟩ := addDestinationServiceAttributes_of_some
    (v1.StandardNodeAttributes x v1.AttrDestinationPrefix role.IPAddress role.ID [])
    inst.Service.Hostname role.Domain name namespace_ hn
  rw [standardNodeAttributes_namespace] at h5
  refine ⟨_, by simp only [buildTCPMixerFilterConfig, hadd]; rfl, ?_⟩
  simp only [DestinationServiceConsistent, GoMap.get_set]
  refine ⟨by simpa using h1, by simpa using h2, by simpa using h3, by simpa using h4, ?_⟩
  simpa using h5

/-- C5: for a domain `first.rest` whose first label `first` has no `.`, `nameAndNamespace`
returns `(hostname, "")` when the hostname does not end with `rest`; otherwise it returns the
first two segments of the hostname split on `.` when there are at least two, and
`(hostname, "")` when there is only one. -/
theorem nameAndNamespace_spec (hostname domain first rest : String)
    (hfirst : '.' ∉ first.data) (hdomain : domain = first ++ "." ++ rest) :
    nameAndNamespace hostname domain =
      if strings.HasSuffix hostname rest = false then some (hostname, "")
      else match strings.Split hostname '.' with
        | name :: namespace_ :: _ => some (name, namespace_)
        | _ => some (hostname, "") :=
  nameAndNamespace_of_dot hostname domain first rest hfirst hdomain

/-- The three cases of `nameAndNamespace` under the domain `default.svc.cluster.local`: a
hostname outside `svc.cluster.local`, a hostname with several segments, and the one-segment
hostname under the domain `x.`, whose rest is empty. -/
theorem nameAndNamespace_spec_witness :
    nameAndNamespace "external.com" "default.svc.cluster.local" = some ("external.com", "") ∧
    nameAndNamespace "reviews.default.svc.cluster.local" "default.svc.cluster.local"
      = some ("reviews", "default") ∧
    nameAndNamespace "reviews" "x." = some ("reviews", "") :=
  ⟨(nameAndNamespace_spec "external.com" "default.svc.cluster.local" "default"
      "svc.cluster.local" (by decide) (by decide)).trans (by decide),
    (nameAndNamespace_spec "reviews.default.svc.cluster.local" "default.svc.cluster.local"
      "default" "svc.cluster.local" (by decide) (by decide)).trans (by decide),
    (nameAndNamespace_spec "reviews" "x." "x" "" (by decide) (by decide)).trans (by decide)⟩

/-- C6: when the domain contains a `.`, `nameAndNamespace` yields a pair `(n, ns)`, and both
the attribute map of `serviceConfig` for a hostname and the attribute map of
`buildTCPMixerFilterConfig` for an instance with that hostname carry `destination.service`
and `destination.service.host` equal to the hostname, `destination.service.name = n`,
`destination.service.uid = istio://ns/services/n`, and `destination.service.namespace`
exactly when `ns` is non-empty, then equal to `ns`. -/
theorem destinationService_attributes_consistent (x : Extern) (hostname domain : String)
    (dest : ServiceInstance) (config : IstioConfigStore) (disableCheck disableReport : Bool)
    (mesh : MeshConfig) (role : Proxy) (inst : ServiceInstance)
    (hdomain : '.' ∈ domain.data) (hrole : role.Domain = domain)
    (hinst : inst.Service.Hostname = hostname) :
    ∃ n ns, nameAndNamespace hostname domain = some (n, ns) ∧
      (∃ sc, serviceConfig x hostname dest config disableCheck disableReport domain = some sc ∧
        DestinationServiceConsistent sc.MixerAttributes.Attributes hostname n ns) ∧
      (∃ c, buildTCPMixerFilterConfig x mesh role inst = some c ∧
        DestinationServiceConsistent c.MixerAttributes.Attributes hostname n ns) := by
  obtain ⟨⟨n, ns⟩, hn⟩ := nameAndNamespace_isSome_of_dot hostname domain hdomain
  refine ⟨n, ns, hn, ?_, ?_⟩
  · obtain ⟨sc, hsc, hcons, -⟩ := serviceConfig_of_some x hostname dest config disableCheck
      disableReport domain n ns hn
    exact ⟨sc, hsc, hcons⟩
  · subst hrole hinst
    exact buildTCPMixerFilterConfig_of_some x mesh role inst n ns hn

/-- For `exampleInstance` and `exampleRole`, the service configuration and the TCP
configuration agree on the destination-service attributes of `reviews` in `default`. -/
theorem destinationService_attributes_consistent_witness :
    ∃ n ns, nameAndNamespace "reviews.default.svc.cluster.local" "default.svc.cluster.local"
        = some (n, ns) ∧
      (∃ sc, serviceConfig exampleExtern "reviews.default.svc.cluster.local" exampleInstance
          exampleStore false false "default.svc.cluster.local" = some sc ∧
        DestinationServiceConsistent sc.MixerAttributes.Attributes
          "reviews.default.svc.cluster.local" n ns) ∧
      (∃ c, buildTCPMixerFilterConfig exampleExtern exampleMesh exampleRole exampleInstance
          = some c ∧
        DestinationServiceConsistent c.MixerAttributes.Attributes
          "reviews.default.svc.cluster.local" n ns) :=
  destinationService_attributes_consistent exampleExtern "reviews.default.svc.cluster.local"
    "default.svc.cluster.local" exampleInstance exampleStore false false exampleMesh
    exampleRole exampleInstance (by decide) rfl rfl

/-- C7: for a domain `first.rest` and a hostname that does not end with `rest`,
`nameAndNamespace` yields the hostname as name and the empty namespace, and the attribute map
of `serviceConfig` has `destination.service.name` equal to the hostname and no
`destination.service.namespace`. -/
theorem nameAndNamespace_outside_domain (x : Extern) (hostname domain first rest : String)
    (dest : ServiceInstance) (config : IstioConfigStore) (disableCheck disableReport : Bool)
    (hfirst : '.' ∉ first.data) (hdomain : domain = first ++ "." ++ rest)
    (hsuffix : strings.HasSuffix hostname rest = false) :
    nameAndNamespace hostname domain = some (hostname, "") ∧
    ∃ sc, serviceConfig x hostname dest config disableCheck disableReport domain = some sc ∧
      sc.MixerAttributes.Attributes.get "destination.service.name"
        = some (.StringValue hostname) ∧
      sc.MixerAttributes.Attributes.get "destination.service.namespace" = none := by
  have hn : nameAndNamespace hostname domain = some (hostname, "") := by
    rw [nameAndNamespace_of_dot hostname domain first rest hfirst hdomain]
    simp [hsuffix]
  obtain ⟨sc, hsc, hcons, -⟩ := serviceConfig_of_some x hostname dest config disableCheck
    disableReport domain hostname "" hn
  obtain ⟨-, -, hname, -, hns⟩ := hcons
  exact ⟨hn, sc, hsc, hname, by simpa using hns⟩

/-- The hostname `external.com` under the domain `default.svc.cluster.local`: the name is the
whole hostname and no namespace attribute is set. -/
theorem nameAndNamespace_outside_domain_witness :
    nameAndNamespace "external.com" "default.svc.cluster.local" = some ("external.com", "") ∧
    ∃ sc, serviceConfig exampleExtern "external.com" exampleInstance exampleStore false false
        "default.svc.cluster.local" = some sc ∧
      sc.MixerAttributes.Attributes.get "destination.service.name"
        = some (.StringValue "external.com") ∧
      sc.MixerAttributes.Attributes.get "destination.service.namespace" = none :=
  nameAndNamespace_outside_domain exampleExtern "external.com" "default.svc.cluster.local"
    "default" "svc.cluster.local" exampleInstance exampleStore false false (by decide)
    (by decide) (by decide)

/-- C8: for the hostname `reviews.default.svc.cluster.local` and the domain
`default.svc.cluster.local`, the derived name is `reviews`, and the expansion sets
`destination.service.name = reviews` and
`destination.service.uid = istio://default/services/reviews`. -/
theorem reviews_expansion_name_uid :
    (nameAndNamespace "reviews.default.svc.cluster.local" "default.svc.cluster.local").map
      Prod.fst = some "reviews" ∧
    ∀ attrs : AttributeMap,
      ∃ attrs', addDestinationServiceAttributes attrs "reviews.default.svc.cluster.local"
          "default.svc.cluster.local" = some attrs' ∧
        attrs'.get "destination.service.name" = some (.StringValue "reviews") ∧
        attrs'.get "destination.service.uid"
          = some (.StringValue "istio://default/services/reviews") := by
  have hn : nameAndNamespace "reviews.default.svc.cluster.local" "default.svc.cluster.local"
      = some ("reviews", "default") := by decide
  refine ⟨by rw [hn]; rfl, fun attrs => ?_⟩
  obtain ⟨attrs', hadd, -, -, hname, huid, -⟩ := addDestinationServiceAttributes_of_some attrs
    "reviews.default.svc.cluster.local" "default.svc.cluster.local" "reviews" "default" hn
  exact ⟨attrs', hadd, hname, by simpa using huid⟩

/-- C9, as stated, fails: for the hostname `reviews.default.svc.cluster.local` and the domain
`default.svc.cluster.local` the derived namespace is `default`, and it is not the case that
no expansion carries `destination.service.namespace = default`. -/
theorem reviews_expansion_namespace_counterexample :
    ¬ ((nameAndNamespace "reviews.default.svc.cluster.local" "default.svc.cluster.local").map
        Prod.snd ≠ some "default") ∧
    ¬ (∀ attrs attrs' : AttributeMap,
        addDestinationServiceAttributes attrs "reviews.default.svc.cluster.local"
          "default.svc.cluster.local" = some attrs' →
        attrs'.get "destination.service.namespace" ≠ some (.StringValue "default")) := by
  have hn : nameAndNamespace "reviews.default.svc.cluster.local" "default.svc.cluster.local"
      = some ("reviews", "default") := by decide
  refine ⟨fun hns => hns (by rw [hn]; rfl), fun hall => ?_⟩
  obtain ⟨attrs', hadd, -, -, -, -, hns, -⟩ := addDestinationServiceAttributes_of_some []
    "reviews.default.svc.cluster.local" "default.svc.cluster.local" "reviews" "default" hn
  exact hall [] attrs' hadd (by simpa using hns)

/-- C9, amended: for the hostname `reviews.default.svc.cluster.local` and the domain
`default.svc.cluster.local`, the derived namespace is `default`, the second segment of the
hostname, and the expansion sets `destination.service.namespace = default`. -/
theorem reviews_expansion_namespace :
    (nameAndNamespace "reviews.default.svc.cluster.local" "default.svc.cluster.local").map
      Prod.snd = some "default" ∧
    ∀ attrs : AttributeMap,
      ∃ attrs', addDestinationServiceAttributes attrs "reviews.default.svc.cluster.local"
          "default.svc.cluster.local" = some attrs' ∧
        attrs'.get "destination.service.namespace" = some (.StringValue "default") := by
  have hn : nameAndNamespace "reviews.default.svc.cluster.local" "default.svc.cluster.local"
      = some ("reviews", "default") := by decide
  refine ⟨by rw [hn]; rfl, fun attrs => ?_⟩
  obtain ⟨attrs', hadd, -, -, -, -, hns, -⟩ := addDestinationServiceAttributes_of_some attrs
    "reviews.default.svc.cluster.local" "default.svc.cluster.local" "reviews" "default" hn
  exact ⟨attrs', hadd, by simpa using hns⟩

/-- C10, the defect: for the single-label domain `local` and for the empty domain the index
expression `domainParts[1]` of `nameAndNamespace` is out of range, and the panic propagates
through `addDestinationServiceAttributes`, `serviceConfig`, `buildTCPMixerFilterConfig` and
`buildHTTPMixerFilterConfig`. -/
theorem nameAndNamespace_single_label_domain_panics :
    nameAndNamespace "reviews.default.svc.cluster.local" "local" = none ∧
    nameAndNamespace "reviews.default.svc.cluster.local" "" = none ∧
    (∀ attrs : AttributeMap, addDestinationServiceAttributes attrs
      "reviews.default.svc.cluster.local" "local" = none) ∧
    (∀ (x : Extern) (config : IstioConfigStore) (disableCheck disableReport : Bool),
      serviceConfig x "reviews.default.svc.cluster.local" exampleInstance config disableCheck
        disableReport "local" = none) ∧
    (∀ (x : Extern) (mesh : MeshConfig),
      buildTCPMixerFilterConfig x mesh exampleRoleSingleLabel exampleInstance = none) ∧
    (∀ (x : Extern) (mesh : MeshConfig) (outboundRoute : Bool) (config : IstioConfigStore),
      buildHTTPMixerFilterConfig x mesh exampleRoleSingleLabel [exampleInstance] outboundRoute
        config = none) := by
  have hn : nameAndNamespace "reviews.default.svc.cluster.local" "local" = none := by decide
  refine ⟨hn, by decide, fun attrs => addDestinationServiceAttributes_of_none _ _ _ hn,
    fun x config dc dr => serviceConfig_of_none x _ _ config dc dr _ hn, ?_, ?_⟩
  · intro x mesh
    have hadd := addDestinationServiceAttributes_of_none
      (v1.StandardNodeAttributes x v1.AttrDestinationPrefix exampleRoleSingleLabel.IPAddress
        exampleRoleSingleLabel.ID [])
      exampleInstance.Service.Hostname exampleRoleSingleLabel.Domain hn
    simp only [buildTCPMixerFilterConfig, hadd]
  · intro x mesh outboundRoute config
    have hscs := buildServiceConfigs_none_of_no_dot x config
      ((outboundRoute && exampleRoleSingleLabel.Type_ != .Router) || mesh.DisablePolicyChecks)
      (outboundRoute && exampleRoleSingleLabel.Type_ != .Router)
      exampleRoleSingleLabel.Domain (by decide) exampleInstance [] []
    simp only [buildHTTPMixerFilterConfig, hscs]

/-! ## The attributes and the transport of the filter configurations -/

theorem buildHTTPMixerFilterConfig_fields (x : Extern) (mesh : MeshConfig) (role : Proxy)
    (nodeInstances : List ServiceInstance) (outboundRoute : Bool)
    (config : IstioConfigStore) (r : HttpClientConfig)
    (hr : buildHTTPMixerFilterConfig x mesh role nodeInstances outboundRoute config = some r) :
    ∃ labels : GoMap String String,
      (nodeInstances = [] → labels = []) ∧
      (∀ inst rest, nodeInstances = inst :: rest → labels = inst.Labels) ∧
      r.Transport = buildTransport x mesh ∧
      r.MixerAttributes.Attributes =
        (if !outboundRoute || role.Type_ == .Router then
          (v1.AddStandardNodeAttributes x
            [("context.reporter.uid", .StringValue ("kubernetes://" ++ role.ID))]
            v1.AttrDestinationPrefix role.IPAddress role.ID labels).set
              "context.reporter.local" (.BoolValue true)
        else [("context.reporter.uid", .StringValue ("kubernetes://" ++ role.ID))]) ∧
      r.ForwardAttributes =
        (if role.Type_ == .Sidecar && !outboundRoute then none
        else some (Attributes.mk
          (addStandardNodeAttributes x [] v1.AttrSourcePrefix role.IPAddress role.ID
            labels))) := by
  unfold buildHTTPMixerFilterConfig at hr
  simp only at hr
  split at hr
  · exact absurd hr (by simp)
  · simp only [Option.some.injEq] at hr
    subst hr
    cases nodeInstances with
    | nil => exact ⟨[], fun _ => rfl, fun _ _ h => by simp at h, rfl, rfl, rfl⟩
    | cons inst rest =>
      refine ⟨inst.Labels, fun h => by simp at h, fun i t h => ?_, rfl, rfl, rfl⟩
      simp only [List.cons.injEq] at h
      rw [h.1]

theorem get_uid_addStandardNodeAttributes (x : Extern) (attr : AttributeMap)
    (pfx IPAddress ID : String) (labels : GoMap String String) :
    (addStandardNodeAttributes x attr pfx IPAddress ID labels).get (pfx ++ ".uid")
      = some (.StringValue ("kubernetes://" ++ ID)) := by
  have hne : pfx ++ ".uid" ≠ pfx ++ ".labels" := by
    intro h
    have := congrArg String.data h
    simp at this
  by_cases hl : labels.length > 0 <;>
    simp [addStandardNodeAttributes, v1.AttrUIDSuffix, v1.AttrLabelsSuffix, GoMap.get_set,
      hl, String.append_assoc, hne]

/-- C11: the result of `buildHTTPMixerFilterConfig` has no `ForwardAttributes` exactly when
the role is a sidecar and the listener is inbound; in every other case `ForwardAttributes`
is present and holds the source-prefixed uid attribute `source.uid` with the string value
`kubernetes://` followed by the ID of the role.  The result exists whenever the domain of
the role contains a `.`. -/
theorem buildHTTPMixerFilterConfig_forwardAttributes (x : Extern) (mesh : MeshConfig)
    (role : Proxy) (nodeInstances : List ServiceInstance) (outboundRoute : Bool)
    (config : IstioConfigStore) :
    ('.' ∈ role.Domain.data →
      ∃ r, buildHTTPMixerFilterConfig x mesh role nodeInstances outboundRoute config = some r) ∧
    ∀ r, buildHTTPMixerFilterConfig x mesh role nodeInstances outboundRoute config = some r →
      (r.ForwardAttributes = none ↔ role.Type_ = .Sidecar ∧ outboundRoute = false) ∧
      (¬ (role.Type_ = .Sidecar ∧ outboundRoute = false) →
        ∃ fa, r.ForwardAttributes = some fa ∧
          fa.Attributes.get (v1.AttrSourcePrefix ++ "." ++ v1.AttrUIDSuffix)
            = some (.StringValue ("kubernetes://" ++ role.ID)) ∧
          fa.Attributes.get "source.uid"
            = some (.StringValue ("kubernetes://" ++ role.ID))) := by
  refine ⟨buildHTTPMixerFilterConfig_isSome_of_dot x mesh role nodeInstances outboundRoute
    config, ?_⟩
  intro r hr
  obtain ⟨labels, -, -, -, -, hfwd⟩ := buildHTTPMixerFilterConfig_fields x mesh role
    nodeInstances outboundRoute config r hr
  have huid := get_uid_addStandardNodeAttributes x [] v1.AttrSourcePrefix role.IPAddress
    role.ID labels
  by_cases hc : role.Type_ = .Sidecar ∧ outboundRoute = false
  · have hb : (role.Type_ == NodeType.Sidecar && !outboundRoute) = true := by
      simp [hc.1, hc.2]
    rw [if_pos hb] at hfwd
    exact ⟨⟨fun _ => hc, fun _ => hfwd⟩, fun hn => absurd hc hn⟩
  · have hb : ¬ (role.Type_ == NodeType.Sidecar && !outboundRoute) = true := by
      simpa using hc
    rw [if_neg hb] at hfwd
    refine ⟨⟨fun h => ?_, fun h => absurd h hc⟩, fun _ => ⟨_, hfwd, ?_, ?_⟩⟩
    · rw [hfwd] at h
      exact absurd h (by simp)
    · simpa [v1.AttrUIDSuffix, String.append_assoc] using huid
    · simpa [v1.AttrSourcePrefix] using huid

/-- For the sidecar `exampleRole`, the inbound configuration forwards no attributes. -/
theorem buildHTTPMixerFilterConfig_forwardAttributes_witness :
    ∃ r, buildHTTPMixerFilterConfig exampleExtern exampleMeshChecked exampleRole
        [exampleInstance] false exampleStore = some r ∧ r.ForwardAttributes = none := by
  obtain ⟨r, hr⟩ := (buildHTTPMixerFilterConfig_forwardAttributes exampleExtern
    exampleMeshChecked exampleRole [exampleInstance] false exampleStore).1 (by decide)
  exact ⟨r, hr, ((buildHTTPMixerFilterConfig_forwardAttributes exampleExtern
    exampleMeshChecked exampleRole [exampleInstance] false exampleStore).2 r hr).1.mpr
      ⟨rfl, rfl⟩⟩

theorem get_reporter_uid_AddStandardNodeAttributes (x : Extern) (attr : AttributeMap)
    (IPAddress ID : String) (labels : GoMap String String) (k : String)
    (hip : k ≠ "destination.ip") (huid : k ≠ "destination.uid")
    (hlabels : k ≠ "destination.labels") :
    (v1.AddStandardNodeAttributes x attr v1.AttrDestinationPrefix IPAddress ID labels).get k
      = attr.get k := by
  by_cases hi : IPAddress.length > 0 <;> by_cases hl : labels.length > 0 <;>
    simp [v1.AddStandardNodeAttributes, v1.AttrDestinationPrefix, v1.AttrIPSuffix,
      v1.AttrUIDSuffix, v1.AttrLabelsSuffix, GoMap.get_set, hi, hl, hip, huid, hlabels]

/-- C12: the mixer attributes of the result of `buildHTTPMixerFilterConfig` hold
`context.reporter.uid` with the string value `kubernetes://` followed by the ID of the role;
they hold `context.reporter.local`, with the boolean value true, exactly when the listener is
not outbound or the role is a router; otherwise `context.reporter.uid` is their only
attribute.  The result exists whenever the domain of the role contains a `.`. -/
theorem buildHTTPMixerFilterConfig_mixerAttributes (x : Extern) (mesh : MeshConfig)
    (role : Proxy) (nodeInstances : List ServiceInstance) (outboundRoute : Bool)
    (config : IstioConfigStore) :
    ('.' ∈ role.Domain.data →
      ∃ r, buildHTTPMixerFilterConfig x mesh role nodeInstances outboundRoute config = some r) ∧
    ∀ r, buildHTTPMixerFilterConfig x mesh role nodeInstances outboundRoute config = some r →
      r.MixerAttributes.Attributes.get "context.reporter.uid"
        = some (.StringValue ("kubernetes://" ++ role.ID)) ∧
      r.MixerAttributes.Attributes.get "context.reporter.local"
        = (if outboundRoute = false ∨ role.Type_ = .Router then some (.BoolValue true)
           else none) ∧
      (¬ (outboundRoute = false ∨ role.Type_ = .Router) →
        r.MixerAttributes.Attributes
          = [("context.reporter.uid", .StringValue ("kubernetes://" ++ role.ID))]) := by
  refine ⟨buildHTTPMixerFilterConfig_isSome_of_dot x mesh role nodeInstances outboundRoute
    config, ?_⟩
  intro r hr
  obtain ⟨labels, -, -, -, hmix, -⟩ := buildHTTPMixerFilterConfig_fields x mesh role
    nodeInstances outboundRoute config r hr
  by_cases hc : outboundRoute = false ∨ role.Type_ = .Router
  · have hb : (!outboundRoute || role.Type_ == NodeType.Router) = true := by
      rcases hc with h | h <;> simp [h]
    rw [if_pos hb] at hmix
    rw [hmix, if_pos hc]
    refine ⟨?_, ?_, fun hn => absurd hc hn⟩
    · rw [GoMap.get_set, if_neg (by simp),
        get_reporter_uid_AddStandardNodeAttributes x _ _ _ _ _ (by simp) (by simp) (by simp)]
      simp [GoMap.get]
    · rw [GoMap.get_set_self]
  · have hb : ¬ (!outboundRoute || role.Type_ == NodeType.Router) = true := by
      simpa using hc
    rw [if_neg hb] at hmix
    rw [hmix, if_neg hc]
    exact ⟨by simp [GoMap.get], by simp [GoMap.get], fun _ => rfl⟩

/-- For the outbound listener of the sidecar `exampleRole`, the only mixer attribute is
`context.reporter.uid`. -/
theorem buildHTTPMixerFilterConfig_mixerAttributes_witness :
    ∃ r, buildHTTPMixerFilterConfig exampleExtern exampleMeshChecked exampleRole
        [exampleInstance] true exampleStore = some r ∧
      r.MixerAttributes.Attributes
        = [("context.reporter.uid", .StringValue "kubernetes://reviews-v1.default")] := by
  obtain ⟨r, hr⟩ := (buildHTTPMixerFilterConfig_mixerAttributes exampleExtern
    exampleMeshChecked exampleRole [exampleInstance] true exampleStore).1 (by decide)
  exact ⟨r, hr, ((buildHTTPMixerFilterConfig_mixerAttributes exampleExtern
    exampleMeshChecked exampleRole [exampleInstance] true exampleStore).2 r hr).2.2
      (by decide)⟩

/-- C13: the check and report clusters of `buildHTTPMixerFilterConfig` and of
`buildTCPMixerFilterConfig` are `BuildSubsetKey` applied to the outbound direction, the empty
subset, the host of `MixerCheckServer` (of `MixerReportServer`) and a port that is 15004
under mutual TLS and 9091 otherwise: among the arguments only the port depends on
`AuthPolicy`.  Both results exist whenever the domain of the role contains a `.`. -/
theorem transport_clusters (x : Extern) (mesh : MeshConfig) (role : Proxy)
    (nodeInstances : List ServiceInstance) (outboundRoute : Bool) (config : IstioConfigStore)
    (inst : ServiceInstance) :
    ('.' ∈ role.Domain.data →
      (∃ r, buildHTTPMixerFilterConfig x mesh role nodeInstances outboundRoute config
        = some r) ∧
      ∃ c, buildTCPMixerFilterConfig x mesh role inst = some c) ∧
    (∀ r, buildHTTPMixerFilterConfig x mesh role nodeInstances outboundRoute config = some r →
      r.Transport.CheckCluster
        = x.BuildSubsetKey .TrafficDirectionOutbound "" (x.SplitHostPort mesh.MixerCheckServer)
            (if mesh.AuthPolicy = .MUTUAL_TLS then 15004 else 9091) ∧
      r.Transport.ReportCluster
        = x.BuildSubsetKey .TrafficDirectionOutbound "" (x.SplitHostPort mesh.MixerReportServer)
            (if mesh.AuthPolicy = .MUTUAL_TLS then 15004 else 9091)) ∧
    (∀ c, buildTCPMixerFilterConfig x mesh role inst = some c →
      c.Transport.CheckCluster
        = x.BuildSubsetKey .TrafficDirectionOutbound "" (x.SplitHostPort mesh.MixerCheckServer)
            (if mesh.AuthPolicy = .MUTUAL_TLS then 15004 else 9091) ∧
      c.Transport.ReportCluster
        = x.BuildSubsetKey .TrafficDirectionOutbound "" (x.SplitHostPort mesh.MixerReportServer)
            (if mesh.AuthPolicy = .MUTUAL_TLS then 15004 else 9091)) := by
  refine ⟨fun hd => ⟨buildHTTPMixerFilterConfig_isSome_of_dot x mesh role nodeInstances
    outboundRoute config hd, buildTCPMixerFilterConfig_isSome_of_dot x mesh role inst hd⟩,
    ?_, ?_⟩
  · intro r hr
    obtain ⟨labels, -, -, htr, -, -⟩ := buildHTTPMixerFilterConfig_fields x mesh role
      nodeInstances outboundRoute config r hr
    rw [htr]
    exact ⟨rfl, rfl⟩
  · intro c hc
    rw [(buildTCPMixerFilterConfig_flags x mesh role inst c hc).2.2]
    exact ⟨rfl, rfl⟩

/-- Under `exampleMeshChecked`, whose transport security mode is mutual TLS, the check
cluster of the HTTP configuration is named with the port 15004. -/
theorem transport_clusters_witness :
    ∃ r, buildHTTPMixerFilterConfig exampleExtern exampleMeshChecked exampleRole
        [exampleInstance] true exampleStore = some r ∧
      r.Transport.CheckCluster
        = exampleExtern.BuildSubsetKey .TrafficDirectionOutbound "" "istio-policy" 15004 := by
  obtain ⟨hex, hhttp, -⟩ := transport_clusters exampleExtern exampleMeshChecked exampleRole
    [exampleInstance] true exampleStore exampleInstance
  obtain ⟨⟨r, hr⟩, -⟩ := hex (by decide)
  exact ⟨r, hr, (hhttp r hr).1⟩

theorem buildTCPMixerFilterConfig_reporter (x : Extern) (mesh : MeshConfig) (role : Proxy)
    (inst : ServiceInstance) (c : TcpClientConfig)
    (hc : buildTCPMixerFilterConfig x mesh role inst = some c) :
    c.MixerAttributes.Attributes.get "context.reporter.uid"
      = some (.StringValue ("kubernetes://" ++ role.ID)) ∧
    c.MixerAttributes.Attributes.get "context.reporter.local" = some (.BoolValue true) := by
  unfold buildTCPMixerFilterConfig at hc
  simp only at hc
  split at hc
  · exact absurd hc (by simp)
  · simp only [Option.some.injEq] at hc
    subst hc
    simp [GoMap.get_set, attrStringValue]

/-- C14: the result of `buildTCPMixerFilterConfig` has `DisableCheckCalls` equal to
`mesh.DisablePolicyChecks` and `DisableReportCalls = false`; its attributes hold
`context.reporter.uid` with the string value `kubernetes://` followed by the ID of the role
and `context.reporter.local` with the boolean value true, and the inbound HTTP configuration
of the same role holds the same two values.  Both results exist whenever the domain of the
role contains a `.`. -/
theorem buildTCPMixerFilterConfig_spec (x : Extern) (mesh : MeshConfig) (role : Proxy)
    (inst : ServiceInstance) (nodeInstances : List ServiceInstance)
    (config : IstioConfigStore) :
    ('.' ∈ role.Domain.data →
      (∃ c, buildTCPMixerFilterConfig x mesh role inst = some c) ∧
      ∃ r, buildHTTPMixerFilterConfig x mesh role nodeInstances false config = some r) ∧
    ∀ c, buildTCPMixerFilterConfig x mesh role inst = some c →
      c.DisableCheckCalls = mesh.DisablePolicyChecks ∧
      c.DisableReportCalls = false ∧
      c.MixerAttributes.Attributes.get "context.reporter.uid"
        = some (.StringValue ("kubernetes://" ++ role.ID)) ∧
      c.MixerAttributes.Attributes.get "context.reporter.local" = some (.BoolValue true) ∧
      ∀ r, buildHTTPMixerFilterConfig x mesh role nodeInstances false config = some r →
        r.MixerAttributes.Attributes.get "context.reporter.uid"
          = c.MixerAttributes.Attributes.get "context.reporter.uid" ∧
        r.MixerAttributes.Attributes.get "context.reporter.local"
          = c.MixerAttributes.Attributes.get "context.reporter.local" := by
  refine ⟨fun hd => ⟨buildTCPMixerFilterConfig_isSome_of_dot x mesh role inst hd,
    buildHTTPMixerFilterConfig_isSome_of_dot x mesh role nodeInstances false config hd⟩, ?_⟩
  intro c hc
  obtain ⟨hcheck, hreport, -⟩ := buildTCPMixerFilterConfig_flags x mesh role inst c hc
  obtain ⟨huid, hlocal⟩ := buildTCPMixerFilterConfig_reporter x mesh role inst c hc
  refine ⟨hcheck, hreport, huid, hlocal, ?_⟩
  intro r hr
  obtain ⟨labels, -, -, -, hmix, -⟩ := buildHTTPMixerFilterConfig_fields x mesh role
    nodeInstances false config r hr
  have hb : (!false || role.Type_ == NodeType.Router) = true := by simp
  rw [if_pos hb] at hmix
  rw [hmix, huid, hlocal]
  refine ⟨?_, GoMap.get_set_self _ _ _⟩
  rw [GoMap.get_set, if_neg (by simp),
    get_reporter_uid_AddStandardNodeAttributes x _ _ _ _ _ (by simp) (by simp) (by simp)]
  simp [GoMap.get]

/-- For `exampleRole` under `exampleMesh`, the TCP configuration exists, has the checks
disabled by the global toggle, the reports enabled and the local reporter attribute. -/
theorem buildTCPMixerFilterConfig_spec_witness :
    ∃ c, buildTCPMixerFilterConfig exampleExtern exampleMesh exampleRole exampleInstance
        = some c ∧
      c.DisableCheckCalls = true ∧ c.DisableReportCalls = false ∧
      c.MixerAttributes.Attributes.get "context.reporter.uid"
        = some (.StringValue "kubernetes://reviews-v1.default") ∧
      c.MixerAttributes.Attributes.get "context.reporter.local" = some (.BoolValue true) := by
  obtain ⟨hex, hall⟩ := buildTCPMixerFilterConfig_spec exampleExtern exampleMesh exampleRole
    exampleInstance [exampleInstance] exampleStore
  obtain ⟨⟨c, hc⟩, -⟩ := hex (by decide)
  obtain ⟨h1, h2, h3, h4, -⟩ := hall c hc
  exact ⟨c, hc, h1, h2, h3, h4⟩

/-- C15: for the same mesh configuration, the transport of `buildTCPMixerFilterConfig` is the
transport of `buildHTTPMixerFilterConfig`, whatever the roles, the direction and the
instances; both results exist whenever the domains of the roles contain a `.`. -/
theorem transport_tcp_eq_http (x : Extern) (mesh : MeshConfig) (role role' : Proxy)
    (nodeInstances : List ServiceInstance) (outboundRoute : Bool) (config : IstioConfigStore)
    (inst : ServiceInstance) :
    ('.' ∈ role.Domain.data → '.' ∈ role'.Domain.data →
      (∃ r, buildHTTPMixerFilterConfig x mesh role nodeInstances outboundRoute config
        = some r) ∧
      ∃ c, buildTCPMixerFilterConfig x mesh role' inst = some c) ∧
    ∀ r c, buildHTTPMixerFilterConfig x mesh role nodeInstances outboundRoute config = some r →
      buildTCPMixerFilterConfig x mesh role' inst = some c →
      c.Transport = r.Transport := by
  refine ⟨fun hd hd' => ⟨buildHTTPMixerFilterConfig_isSome_of_dot x mesh role nodeInstances
    outboundRoute config hd, buildTCPMixerFilterConfig_isSome_of_dot x mesh role' inst hd'⟩,
    ?_⟩
  intro r c hr hc
  obtain ⟨labels, -, -, htr, -, -⟩ := buildHTTPMixerFilterConfig_fields x mesh role
    nodeInstances outboundRoute config r hr
  rw [htr, (buildTCPMixerFilterConfig_flags x mesh role' inst c hc).2.2]

/-- The outbound HTTP configuration and the TCP configuration of `exampleRole` under
`exampleMeshChecked` exist and have the same transport. -/
theorem transport_tcp_eq_http_witness :
    ∃ r c, buildHTTPMixerFilterConfig exampleExtern exampleMeshChecked exampleRole
        [exampleInstance] true exampleStore = some r ∧
      buildTCPMixerFilterConfig exampleExtern exampleMeshChecked exampleRole exampleInstance
        = some c ∧ c.Transport = r.Transport := by
  obtain ⟨hex, hall⟩ := transport_tcp_eq_http exampleExtern exampleMeshChecked exampleRole
    exampleRole [exampleInstance] true exampleStore exampleInstance
  obtain ⟨⟨r, hr⟩, ⟨c, hc⟩⟩ := hex (by decide) (by decide)
  exact ⟨r, c, hr, hc, hall r c hr hc⟩

/-! ## The standard node attributes -/

theorem string_append_left_ne (p a b : String) (h : a ≠ b) : p ++ a ≠ p ++ b := by
  intro heq
  apply h
  have hdata := congrArg String.data heq
  simp only [String.data_append, List.append_cancel_left_eq] at hdata
  exact String.ext hdata

/-- C16: `addStandardNodeAttributes` sets `<prefix>.uid` to the string `kubernetes://`
followed by the ID, sets `<prefix>.ip` to the bytes of the parsed IP exactly when the IP
string is non-empty, sets `<prefix>.labels` to the string map of the labels exactly when the
label map is non-empty, and leaves the value of every other key, and of the two conditional
keys when they are not set, as it was. -/
theorem addStandardNodeAttributes_spec (x : Extern) (attr : AttributeMap)
    (pfx IPAddress ID : String) (labels : GoMap String String) :
    (addStandardNodeAttributes x attr pfx IPAddress ID labels).get (pfx ++ ".uid")
      = some (.StringValue ("kubernetes://" ++ ID)) ∧
    (addStandardNodeAttributes x attr pfx IPAddress ID labels).get (pfx ++ ".ip")
      = (if IPAddress ≠ "" then some (.BytesValue (x.ParseIP IPAddress))
         else attr.get (pfx ++ ".ip")) ∧
    (addStandardNodeAttributes x attr pfx IPAddress ID labels).get (pfx ++ ".labels")
      = (if labels ≠ [] then some (.StringMapValue labels)
         else attr.get (pfx ++ ".labels")) ∧
    ∀ k, k ≠ pfx ++ ".uid" → k ≠ pfx ++ ".ip" → k ≠ pfx ++ ".labels" →
      (addStandardNodeAttributes x attr pfx IPAddress ID labels).get k = attr.get k := by
  have h1 : pfx ++ ".uid" ≠ pfx ++ ".labels" := string_append_left_ne pfx _ _ (by decide)
  have h2 : pfx ++ ".ip" ≠ pfx ++ ".uid" := string_append_left_ne pfx _ _ (by decide)
  have h3 : pfx ++ ".ip" ≠ pfx ++ ".labels" := string_append_left_ne pfx _ _ (by decide)
  have hip : IPAddress.length > 0 ↔ IPAddress ≠ "" := string_length_pos_iff IPAddress
  have hlab : labels.length > 0 ↔ labels ≠ [] := List.length_pos
  refine ⟨?_, ?_, ?_, ?_⟩
  · by_cases hi : IPAddress = "" <;> by_cases hl : labels = [] <;>
      simp [addStandardNodeAttributes, v1.AttrIPSuffix, v1.AttrUIDSuffix, v1.AttrLabelsSuffix,
        String.append_assoc, hip, hlab, hi, hl, GoMap.get_set, h1]
  · by_cases hi : IPAddress = "" <;> by_cases hl : labels = [] <;>
      simp [addStandardNodeAttributes, v1.AttrIPSuffix, v1.AttrUIDSuffix, v1.AttrLabelsSuffix,
        String.append_assoc, hip, hlab, hi, hl, GoMap.get_set, h2, h3]
  · by_cases hi : IPAddress = "" <;> by_cases hl : labels = [] <;>
      simp [addStandardNodeAttributes, v1.AttrIPSuffix, v1.AttrUIDSuffix, v1.AttrLabelsSuffix,
        String.append_assoc, hip, hlab, hi, hl, GoMap.get_set, h1.symm, h3.symm]
  · intro k hk1 hk2 hk3
    by_cases hi : IPAddress = "" <;> by_cases hl : labels = [] <;>
      simp [addStandardNodeAttributes, v1.AttrIPSuffix, v1.AttrUIDSuffix, v1.AttrLabelsSuffix,
        String.append_assoc, hip, hlab, hi, hl, GoMap.get_set, hk1, hk2, hk3]

/-- On a map that holds `source.ip` and `other`, with an empty IP string and one label:
`source.uid` and `source.labels` are set, `source.ip` and `other` keep their values. -/
theorem addStandardNodeAttributes_spec_witness :
    (addStandardNodeAttributes exampleExtern
        [("source.ip", .BytesValue [10, 1, 1, 1]), ("other", .BoolValue false)]
        "source" "" "reviews-v1.default" [("app", "reviews")]).get "other"
      = some (.BoolValue false) ∧
    (addStandardNodeAttributes exampleExtern
        [("source.ip", .BytesValue [10, 1, 1, 1]), ("other", .BoolValue false)]
        "source" "" "reviews-v1.default" [("app", "reviews")]).get "source.ip"
      = some (.BytesValue [10, 1, 1, 1]) :=
  ⟨((addStandardNodeAttributes_spec exampleExtern
      [("source.ip", .BytesValue [10, 1, 1, 1]), ("other", .BoolValue false)]
      "source" "" "reviews-v1.default" [("app", "reviews")]).2.2.2 "other"
        (by decide) (by decide) (by decide)).trans (by decide),
    ((addStandardNodeAttributes_spec exampleExtern
      [("source.ip", .BytesValue [10, 1, 1, 1]), ("other", .BoolValue false)]
      "source" "" "reviews-v1.default" [("app", "reviews")]).2.1).trans (by decide)⟩

/-! ## `GetInstancesGroupedByHandlers` does not depend on the order of the snapshot -/

theorem getInstancesGroupedByHandlers_get (s : Snapshot) (h : HandlerRef) :
    (h ∈ (GetInstancesGroupedByHandlers s).keys ↔ ∃ a ∈ s.actions, a.Handler = h) ∧
    (h ∈ (GetInstancesGroupedByHandlers s).keys →
      ∃ l, (GetInstancesGroupedByHandlers s).get h = some l ∧
        ∀ i, i ∈ l ↔ ∃ a ∈ s.actions, a.Handler = h ∧ i ∈ a.Instances) := by
  have hg := grouped_groupRules s
  have hkeys := keys_materialize _ hg.nodup
  refine ⟨?_, ?_⟩
  · rw [GetInstancesGroupedByHandlers, hkeys, hg.handlers h]
  · intro hh
    rw [GetInstancesGroupedByHandlers, hkeys] at hh
    obtain ⟨v, hv⟩ := (GoMap.mem_keys_iff_get _ h).mp hh
    refine ⟨v.keys, ?_, (hg.sets h v hv).2⟩
    rw [GetInstancesGroupedByHandlers, get_materialize _ hg.nodup, hv]
    rfl

theorem exists_mem_iff_of_forall₂ {α : Type} {R : α → α → Prop} {P Q : α → Prop}
    (hR : ∀ a b, R a b → (P a ↔ Q b)) {l₁ l₂ : List α} (h : List.Forall₂ R l₁ l₂) :
    (∃ a ∈ l₁, P a) ↔ ∃ b ∈ l₂, Q b := by
  induction h with
  | nil => simp
  | cons hab _ ih =>
    simp only [List.mem_cons, exists_eq_or_imp, ih, hR _ _ hab]

theorem rule_reordered_exists_iff {r r' : Rule} (hr : r.Reordered r')
    {P : ActionStatic → Prop} (hP : ∀ a b, a.Reordered b → (P a ↔ P b)) :
    (∃ a ∈ r.ActionsStatic, P a) ↔ ∃ a ∈ r'.ActionsStatic, P a := by
  obtain ⟨l, hl, hperm⟩ := hr
  rw [exists_mem_iff_of_forall₂ hP hl]
  constructor
  · rintro ⟨a, ha, hp⟩
    exact ⟨a, hperm.mem_iff.mp ha, hp⟩
  · rintro ⟨a, ha, hp⟩
    exact ⟨a, hperm.mem_iff.mpr ha, hp⟩

theorem snapshot_reordered_exists_iff {s s' : Snapshot} (hs : s.Reordered s')
    {P : ActionStatic → Prop} (hP : ∀ a b, a.Reordered b → (P a ↔ P b)) :
    (∃ a ∈ s.actions, P a) ↔ ∃ a ∈ s'.actions, P a := by
  obtain ⟨l, hl, hperm⟩ := hs
  have hrules : (∃ r ∈ s.Rules, ∃ a ∈ r.ActionsStatic, P a)
      ↔ ∃ r ∈ l, ∃ a ∈ r.ActionsStatic, P a :=
    @exists_mem_iff_of_forall₂ Rule Rule.Reordered (fun r => ∃ a ∈ r.ActionsStatic, P a)
      (fun r => ∃ a ∈ r.ActionsStatic, P a)
      (fun _ _ hr => rule_reordered_exists_iff hr hP) _ _ hl
  have hact : ∀ t : Snapshot,
      (∃ a ∈ t.actions, P a) ↔ ∃ r ∈ t.Rules, ∃ a ∈ r.ActionsStatic, P a := by
    intro t
    constructor
    · rintro ⟨a, ha, hp⟩
      obtain ⟨r, hr, har⟩ := (mem_actions t a).mp ha
      exact ⟨r, hr, a, har, hp⟩
    · rintro ⟨r, hr, a, har, hp⟩
      exact ⟨a, (mem_actions t a).mpr ⟨r, hr, har⟩, hp⟩
  rw [hact s, hact s', hrules]
  constructor
  · rintro ⟨r, hr, h⟩
    exact ⟨r, hperm.mem_iff.mp hr, h⟩
  · rintro ⟨r, hr, h⟩
    exact ⟨r, hperm.mem_iff.mpr hr, h⟩

theorem Snapshot.reordered_refl (s : Snapshot) : s.Reordered s :=
  ⟨s.Rules, List.forall₂_same.mpr (fun r _ =>
    ⟨r.ActionsStatic, List.forall₂_same.mpr (fun _ _ => ⟨rfl, List.Perm.refl _⟩),
      List.Perm.refl _⟩), List.Perm.refl _⟩

/-- C17: a snapshot is a reordering of itself, and for a snapshot `s'` obtained from `s` by
permuting the rules, the actions within the rules and the instances within the actions, the
results of `GetInstancesGroupedByHandlers` have the same keys and, under every key, lists
with the same elements. -/
theorem getInstancesGroupedByHandlers_order_independent (s s' : Snapshot) :
    s.Reordered s ∧
    (s.Reordered s' →
      (∀ h, h ∈ (GetInstancesGroupedByHandlers s).keys
        ↔ h ∈ (GetInstancesGroupedByHandlers s').keys) ∧
      ∀ h, h ∈ (GetInstancesGroupedByHandlers s).keys →
        ∃ l l', (GetInstancesGroupedByHandlers s).get h = some l ∧
          (GetInstancesGroupedByHandlers s').get h = some l' ∧
          ∀ i, i ∈ l ↔ i ∈ l') := by
  refine ⟨s.reordered_refl, fun hs => ?_⟩
  have hkeys : ∀ h, h ∈ (GetInstancesGroupedByHandlers s).keys
      ↔ h ∈ (GetInstancesGroupedByHandlers s').keys := by
    intro h
    rw [(getInstancesGroupedByHandlers_get s h).1, (getInstancesGroupedByHandlers_get s' h).1]
    exact snapshot_reordered_exists_iff hs (fun a b hab => by rw [hab.1])
  refine ⟨hkeys, fun h hh => ?_⟩
  obtain ⟨l, hl, hmem⟩ := (getInstancesGroupedByHandlers_get s h).2 hh
  obtain ⟨l', hl', hmem'⟩ := (getInstancesGroupedByHandlers_get s' h).2 ((hkeys h).mp hh)
  refine ⟨l, l', hl, hl', fun i => ?_⟩
  rw [hmem i, hmem' i]
  exact snapshot_reordered_exists_iff hs (fun a b hab => by rw [hab.1, hab.2.mem_iff])

/-- The snapshots `exampleSnapshot` and `exampleSnapshotReordered` give handler `1` lists
with the same elements. -/
theorem getInstancesGroupedByHandlers_order_independent_witness :
    ∃ l l', (GetInstancesGroupedByHandlers exampleSnapshot).get 1 = some l ∧
      (GetInstancesGroupedByHandlers exampleSnapshotReordered).get 1 = some l' ∧
      ∀ i, i ∈ l ↔ i ∈ l' :=
  ((getInstancesGroupedByHandlers_order_independent exampleSnapshot
    exampleSnapshotReordered).2
      ⟨[{ ActionsStatic := [{ Handler := 2, Instances := [] },
                            { Handler := 1, Instances := [1, 2, 1] }] },
        { ActionsStatic := [{ Handler := 1, Instances := [2, 3] }] }],
        List.Forall₂.cons
          ⟨[{ Handler := 1, Instances := [1, 2, 1] }, { Handler := 2, Instances := [] }],
            List.Forall₂.cons ⟨rfl, List.Perm.refl _⟩
              (List.Forall₂.cons ⟨rfl, List.Perm.refl _⟩ List.Forall₂.nil),
            List.Perm.swap _ _ _⟩
          (List.Forall₂.cons
            ⟨[{ Handler := 1, Instances := [2, 3] }],
              List.Forall₂.cons ⟨rfl, List.Perm.swap _ _ _⟩ List.Forall₂.nil,
              List.Perm.refl _⟩
            List.Forall₂.nil),
        List.Perm.swap _ _ _⟩).2 1 (by decide)

/-! ## The per-route configuration and the service configurations -/

/-- C18: the service configuration returned by `buildMixerPerRouteConfig` has
`DisableCheckCalls` equal to the global toggle `DisablePolicyChecks` of the mesh and
`DisableReportCalls = false`, for every role and every value of `outboundRoute`; it exists
whenever the domain of the role contains a `.`. -/
theorem buildMixerPerRouteConfig_disable_flags (x : Extern) (inp : InputParams)
    (outboundRoute disableForward : Bool) (destinationService : String) :
    ('.' ∈ inp.Node.Domain.data →
      ∃ sc, buildMixerPerRouteConfig x inp outboundRoute disableForward destinationService
        = some sc) ∧
    ∀ sc, buildMixerPerRouteConfig x inp outboundRoute disableForward destinationService
        = some sc →
      sc.DisableCheckCalls = inp.Env.Mesh.DisablePolicyChecks ∧
      sc.DisableReportCalls = false :=
  ⟨buildMixerPerRouteConfig_isSome_of_dot x inp outboundRoute disableForward
      destinationService,
    buildMixerPerRouteConfig_flags x inp outboundRoute disableForward destinationService⟩

/-- For `exampleInput`, whose mesh disables the policy checks, the per-route configuration
of an outbound route exists, has the checks disabled and the reports enabled. -/
theorem buildMixerPerRouteConfig_disable_flags_witness :
    ∃ sc, buildMixerPerRouteConfig exampleExtern exampleInput true false "" = some sc ∧
      sc.DisableCheckCalls = true ∧ sc.DisableReportCalls = false := by
  obtain ⟨hex, hall⟩ := buildMixerPerRouteConfig_disable_flags exampleExtern exampleInput
    true false ""
  obtain ⟨sc, hsc⟩ := hex (by decide)
  exact ⟨sc, hsc, hall sc hsc⟩

theorem serviceConfig_attributes (x : Extern) (serviceHostname : String)
    (dest : ServiceInstance) (config : IstioConfigStore) (disableCheck disableReport : Bool)
    (proxyDomain : String) (sc : ServiceConfig)
    (hsc : serviceConfig x serviceHostname dest config disableCheck disableReport proxyDomain
      = some sc) :
    sc.MixerAttributes.Attributes.get "destination.service"
      = some (.StringValue serviceHostname) ∧
    sc.MixerAttributes.Attributes.get "destination.service.host"
      = some (.StringValue serviceHostname) ∧
    sc.MixerAttributes.Attributes.get "destination.labels"
      = if dest.Labels.length > 0 then some (.StringMapValue dest.Labels) else none := by
  cases hn : nameAndNamespace serviceHostname proxyDomain with
  | none =>
    rw [serviceConfig_of_none x serviceHostname dest config disableCheck disableReport
      proxyDomain hn] at hsc
    exact absurd hsc (by simp)
  | some p =>
    obtain ⟨n, ns⟩ := p
    obtain ⟨sc', hsc', hcons, hlabels⟩ := serviceConfig_of_some x serviceHostname dest config
      disableCheck disableReport proxyDomain n ns hn
    rw [hsc] at hsc'
    simp only [Option.some.injEq] at hsc'
    subst hsc'
    exact ⟨hcons.1, hcons.2.1, hlabels⟩

theorem buildServiceConfigs_keys (x : Extern) (config : IstioConfigStore)
    (disablePolicy disableReport : Bool) (domain : String)
    (l : List ServiceInstance) (acc r : GoMap String ServiceConfig)
    (hr : buildServiceConfigs x config disablePolicy disableReport domain l acc = some r)
    (k : String) :
    k ∈ r.keys ↔ k ∈ acc.keys ∨ ∃ inst ∈ l, inst.Service.Hostname = k := by
  induction l generalizing acc with
  | nil =>
    simp only [buildServiceConfigs, Option.some.injEq] at hr
    subst hr
    simp
  | cons inst rest ih =>
    cases hsc : serviceConfig x inst.Service.Hostname inst config disablePolicy disableReport
        domain with
    | none => simp [buildServiceConfigs, hsc] at hr
    | some sc =>
      simp only [buildServiceConfigs, hsc] at hr
      rw [ih _ hr, GoMap.mem_keys_set]
      simp only [List.mem_cons, exists_eq_or_imp]
      constructor
      · rintro ((h | h) | h)
        · exact Or.inr (Or.inl h.symm)
        · exact Or.inl h
        · exact Or.inr (Or.inr h)
      · rintro (h | h | h)
        · exact Or.inl (Or.inr h)
        · exact Or.inl (Or.inl h.symm)
        · exact Or.inr h

theorem buildServiceConfigs_entries_mem (x : Extern) (config : IstioConfigStore)
    (disablePolicy disableReport : Bool) (domain : String)
    (P : ServiceInstance → String × ServiceConfig → Prop)
    (hP : ∀ (inst : ServiceInstance) sc,
      serviceConfig x inst.Service.Hostname inst config disablePolicy disableReport domain
        = some sc → P inst (inst.Service.Hostname, sc))
    (l : List ServiceInstance) (acc r : GoMap String ServiceConfig)
    (hr : buildServiceConfigs x config disablePolicy disableReport domain l acc = some r) :
    ∀ e ∈ r, e ∈ acc ∨ ∃ inst ∈ l, P inst e := by
  induction l generalizing acc with
  | nil =>
    simp only [buildServiceConfigs, Option.some.injEq] at hr
    subst hr
    exact fun e he => Or.inl he
  | cons inst rest ih =>
    cases hsc : serviceConfig x inst.Service.Hostname inst config disablePolicy disableReport
        domain with
    | none => simp [buildServiceConfigs, hsc] at hr
    | some sc =>
      simp only [buildServiceConfigs, hsc] at hr
      intro e he
      rcases ih _ hr e he with h | ⟨i, hi, hp⟩
      · rcases GoMap.mem_set _ _ _ _ h with h' | h'
        · exact Or.inr ⟨inst, List.mem_cons_self _ _, h' ▸ hP inst sc hsc⟩
        · exact Or.inl h'
      · exact Or.inr ⟨i, List.mem_cons_of_mem _ hi, hp⟩

/-- C19: the keys of `ServiceConfigs` in the result of `buildHTTPMixerFilterConfig` are
exactly the hostnames of the given instances, none for the empty list; every entry `(k, sc)`
was built from an instance of the list with hostname `k`, its attributes
`destination.service` and `destination.service.host` are `k`, and it holds
`destination.labels`, the labels of that instance, exactly when the instance has a non-empty
label set.  The result exists whenever the domain of the role contains a `.`. -/
theorem buildHTTPMixerFilterConfig_serviceConfigs_spec (x : Extern) (mesh : MeshConfig)
    (role : Proxy) (nodeInstances : List ServiceInstance) (outboundRoute : Bool)
    (config : IstioConfigStore) :
    ('.' ∈ role.Domain.data →
      ∃ r, buildHTTPMixerFilterConfig x mesh role nodeInstances outboundRoute config = some r) ∧
    ∀ r, buildHTTPMixerFilterConfig x mesh role nodeInstances outboundRoute config = some r →
      (∀ k, k ∈ r.ServiceConfigs.keys ↔ ∃ inst ∈ nodeInstances, inst.Service.Hostname = k) ∧
      (nodeInstances = [] → r.ServiceConfigs = []) ∧
      ∀ e ∈ r.ServiceConfigs, ∃ inst ∈ nodeInstances,
        inst.Service.Hostname = e.1 ∧
        serviceConfig x e.1 inst config
          ((outboundRoute && role.Type_ != .Router) || mesh.DisablePolicyChecks)
          (outboundRoute && role.Type_ != .Router) role.Domain = some e.2 ∧
        e.2.MixerAttributes.Attributes.get "destination.service"
          = some (.StringValue e.1) ∧
        e.2.MixerAttributes.Attributes.get "destination.service.host"
          = some (.StringValue e.1) ∧
        ((∃ v, e.2.MixerAttributes.Attributes.get "destination.labels" = some v)
          ↔ inst.Labels ≠ []) ∧
        (inst.Labels ≠ [] → e.2.MixerAttributes.Attributes.get "destination.labels"
          = some (.StringMapValue inst.Labels)) := by
  refine ⟨buildHTTPMixerFilterConfig_isSome_of_dot x mesh role nodeInstances outboundRoute
    config, ?_⟩
  intro r hr
  have hscs := buildHTTPMixerFilterConfig_serviceConfigs x mesh role nodeInstances
    outboundRoute config r hr
  refine ⟨fun k => ?_, fun hnil => ?_, fun e he => ?_⟩
  · rw [buildServiceConfigs_keys x config _ _ role.Domain nodeInstances [] r.ServiceConfigs
      hscs k]
    simp [GoMap.keys]
  · rw [hnil] at hscs
    simp only [buildServiceConfigs, Option.some.injEq] at hscs
    exact hscs.symm
  · have hent := buildServiceConfigs_entries_mem x config
      ((outboundRoute && role.Type_ != .Router) || mesh.DisablePolicyChecks)
      (outboundRoute && role.Type_ != .Router) role.Domain
      (fun inst e => inst.Service.Hostname = e.1 ∧
        serviceConfig x e.1 inst config
          ((outboundRoute && role.Type_ != .Router) || mesh.DisablePolicyChecks)
          (outboundRoute && role.Type_ != .Router) role.Domain = some e.2)
      (fun inst sc hsc => ⟨rfl, hsc⟩) nodeInstances [] r.ServiceConfigs hscs e he
    rcases hent with h | ⟨inst, hinst, hhost, hsc⟩
    · exact absurd h (List.not_mem_nil _)
    · obtain ⟨h1, h2, h3⟩ := serviceConfig_attributes x e.1 inst config _ _ role.Domain e.2 hsc
      have hlen : inst.Labels.length > 0 ↔ inst.Labels ≠ [] := List.length_pos
      refine ⟨inst, hinst, hhost, hsc, h1, h2, ?_, ?_⟩
      · rw [h3]
        by_cases hl : inst.Labels = []
        · simp [hl]
        · simp [hlen.mpr hl, hl]
      · intro hl
        rw [h3, if_pos (hlen.mpr hl)]

/-- For the instances `exampleInstance`, with labels, and `exampleInstanceNoLabels`, the
result exists and its keys are the two hostnames. -/
theorem buildHTTPMixerFilterConfig_serviceConfigs_spec_witness :
    ∃ r, buildHTTPMixerFilterConfig exampleExtern exampleMeshChecked exampleRole
        [exampleInstance, exampleInstanceNoLabels] false exampleStore = some r ∧
      ∀ k, k ∈ r.ServiceConfigs.keys ↔
        ∃ inst ∈ [exampleInstance, exampleInstanceNoLabels], inst.Service.Hostname = k := by
  obtain ⟨hex, hall⟩ := buildHTTPMixerFilterConfig_serviceConfigs_spec exampleExtern
    exampleMeshChecked exampleRole [exampleInstance, exampleInstanceNoLabels] false
    exampleStore
  obtain ⟨r, hr⟩ := hex (by decide)
  exact ⟨r, hr, (hall r hr).1⟩

/-! ## The listener callbacks without mixer servers -/

theorem buildMixerHTTPFilter_no_servers (x : Extern) (env : Environment) (node : Proxy)
    (proxyInstances : List ServiceInstance) (outbound : Bool)
    (hcheck : env.Mesh.MixerCheckServer = "") (hreport : env.Mesh.MixerReportServer = "") :
    buildMixerHTTPFilter x env node proxyInstances outbound = some none := by
  simp [buildMixerHTTPFilter, hcheck, hreport]

theorem buildMixerInboundTCPFilter_no_servers (x : Extern) (env : Environment) (node : Proxy)
    (inst : ServiceInstance)
    (hcheck : env.Mesh.MixerCheckServer = "") (hreport : env.Mesh.MixerReportServer = "") :
    buildMixerInboundTCPFilter x env node inst = some none := by
  simp [buildMixerInboundTCPFilter, hcheck, hreport]

theorem outboundHTTPChains_no_servers (x : Extern) (inp : InputParams)
    (hcheck : inp.Env.Mesh.MixerCheckServer = "")
    (hreport : inp.Env.Mesh.MixerReportServer = "") (chains : List FilterChain) :
    outboundHTTPChains x inp chains = some chains := by
  induction chains with
  | nil => rfl
  | cons chain rest ih =>
    simp [outboundHTTPChains, buildMixerHTTPFilter_no_servers x inp.Env inp.Node
      inp.ProxyInstances true hcheck hreport, ih]

theorem inboundTCPChains_no_servers (x : Extern) (inp : InputParams)
    (hcheck : inp.Env.Mesh.MixerCheckServer = "")
    (hreport : inp.Env.Mesh.MixerReportServer = "") (chains : List FilterChain) :
    inboundTCPChains x inp chains = some chains := by
  induction chains with
  | nil => rfl
  | cons chain rest ih =>
    simp [inboundTCPChains, buildMixerInboundTCPFilter_no_servers x inp.Env inp.Node
      inp.ServiceInstance hcheck hreport, ih]

theorem inboundHTTPChains_no_servers (x : Extern) (inp : InputParams)
    (hcheck : inp.Env.Mesh.MixerCheckServer = "")
    (hreport : inp.Env.Mesh.MixerReportServer = "") (chains : List FilterChain) :
    inboundHTTPChains x inp chains
      = some (chains.map (fun chain => { chain with HTTP := chain.HTTP ++ [none] })) := by
  induction chains with
  | nil => rfl
  | cons chain rest ih =>
    simp [inboundHTTPChains, buildMixerHTTPFilter_no_servers x inp.Env inp.Node
      inp.ProxyInstances false hcheck hreport, ih]

theorem onOutboundListener_no_servers (x : Extern) (inp : InputParams)
    (mutable : MutableObjects) (hcheck : inp.Env.Mesh.MixerCheckServer = "")
    (hreport : inp.Env.Mesh.MixerReportServer = "")
    (htype : inp.ListenerType ≠ .ListenerTypeUnknown) :
    OnOutboundListener x inp mutable = some (.ok mutable) := by
  cases hl : inp.ListenerType with
  | ListenerTypeUnknown => exact absurd hl htype
  | ListenerTypeTCP => simp [OnOutboundListener, hl]
  | ListenerTypeHTTP =>
    simp [OnOutboundListener, hl, outboundHTTPChains_no_servers x inp hcheck hreport]

theorem onInboundListener_tcp_no_servers (x : Extern) (inp : InputParams)
    (mutable : MutableObjects) (hcheck : inp.Env.Mesh.MixerCheckServer = "")
    (hreport : inp.Env.Mesh.MixerReportServer = "")
    (htype : inp.ListenerType = .ListenerTypeTCP) :
    OnInboundListener x inp mutable = some (.ok mutable) := by
  simp [OnInboundListener, htype, inboundTCPChains_no_servers x inp hcheck hreport]

theorem onInboundListener_http_no_servers (x : Extern) (inp : InputParams)
    (mutable : MutableObjects) (hcheck : inp.Env.Mesh.MixerCheckServer = "")
    (hreport : inp.Env.Mesh.MixerReportServer = "")
    (htype : inp.ListenerType = .ListenerTypeHTTP) :
    OnInboundListener x inp mutable
      = some (.ok { FilterChains :=
          mutable.FilterChains.map (fun chain => { chain with HTTP := chain.HTTP ++ [none] }) })
      := by
  simp [OnInboundListener, htype, inboundHTTPChains_no_servers x inp hcheck hreport]

/-- C20, the defect: with both mixer servers empty, `OnInboundListener` on an HTTP listener
appends the nil filter to the HTTP filters of the chain, whereas `OnOutboundListener` on the
same input leaves the chain as it was. -/
theorem onInboundListener_appends_nil_filter :
    OnInboundListener exampleExtern exampleInputNoMixer exampleMutable
      = some (.ok { FilterChains := [{ HTTP := [none], TCP := [] }] }) ∧
    OnOutboundListener exampleExtern exampleInputNoMixer exampleMutable
      = some (.ok exampleMutable) :=
  ⟨rfl, rfl⟩

end Istio
